import Mathlib

/-!
Verification development for the mirror-curve repository.

Shallow embedding of the grid model (src/logic/grid.js), the curve tracer
(src/logic/mirrorCurve.js), the enumerator (src/logic/curveFinder.js), the
spline smoother (src/drawing/spline.js, bundled in src/ui/mobileUI.js) and the
path sampler (src/core/animationManager.js).

Modelling conventions:
- JS grid-line ids are strings of the form t_row_col produced by
  generateGridLineId, which is injective; we use the structured triple
  directly as the key type LineId.
- The gridLines Map is represented by its key set (a pure membership test
  determined by the grid dimensions, hasGridLine) plus the two mutable
  per-line attributes: the mirror flag and the set of used directions, held
  as functions in the Grid record.  Connections are computed once from the
  dimensions (computeConnections) and never mutated, so they are a pure
  function of the line and the dimensions.
- Mutation is state passing: every operation returns the new Grid.
- Math.random in randomizeMirrors is abstracted by an oracle
  flip : LineId -> Bool giving the outcome of the comparison
  Math.random() < p for each visited line.
- Floating point is modelled by rational numbers; Math.sqrt in
  animationManager is abstracted by an oracle norm2 applied to (dx, dy).
-/

namespace MirrorCurveModel

/-- The four diagonal directions, Grid.NW = 0, Grid.NE = 1, Grid.SW = 2,
Grid.SE = 3 (src/logic/grid.js). -/
inductive Dir where
  | NW
  | NE
  | SW
  | SE
deriving DecidableEq, Repr

/-- Geometric opposite of a direction, as computed inline in
MirrorCurve.buildCurve (src/logic/mirrorCurve.js lines 83-86):
NW to SE, SE to NW, NE to SW, SW to NE. -/
def oppDir : Dir → Dir
  | .NW => .SE
  | .SE => .NW
  | .NE => .SW
  | .SW => .NE

/-- Orientation of a grid line: h = horizontal, v = vertical. -/
inductive LType where
  | h
  | v
deriving DecidableEq, Repr

/-- Structured form of a grid-line id t_row_col (generateGridLineId /
parseGridLineId in src/logic/grid.js). -/
structure LineId where
  t : LType
  row : Nat
  col : Nat
deriving DecidableEq, Repr

/-- Grid state: dimensions plus the two mutable per-line attributes.
The key set of the gridLines Map is determined by rows and cols
(initializeGridLines); connections are pure functions of the id. -/
structure Grid where
  rows : Nat
  cols : Nat
  mirror : LineId → Bool
  used : LineId → Dir → Bool

/-- Membership in the gridLines Map: initializeGridLines creates horizontal
lines for row in [0, rows] and col in [0, cols), and vertical lines for
row in [0, rows) and col in [0, cols]. -/
def hasGridLine (g : Grid) (l : LineId) : Bool :=
  match l.t with
  | .h => decide (l.row ≤ g.rows) && decide (l.col < g.cols)
  | .v => decide (l.row < g.rows) && decide (l.col ≤ g.cols)

/-- Insertion order of the gridLines Map (initializeGridLines): all
horizontal lines in row-major order, then all vertical lines in row-major
order.  JS Map iteration follows insertion order. -/
def gridLineList (rows cols : Nat) : List LineId :=
  ((List.range (rows + 1)).flatMap fun r =>
    (List.range cols).map fun c => LineId.mk .h r c) ++
  ((List.range rows).flatMap fun r =>
    (List.range (cols + 1)).map fun c => LineId.mk .v r c)

/-- Precomputed neighbor map, translated guard by guard from
Grid.computeConnections (src/logic/grid.js lines 109-166).  The guards
col >= 0 and row >= 0 from the source are vacuous over natural-number
indices and are kept as the trivially true conjunct 0 <= _. -/
def connections (g : Grid) (l : LineId) (d : Dir) : Option LineId :=
  match l.t with
  | .h =>
    match d with
    | .NW => if 0 ≤ l.col ∧ 0 < l.row then some ⟨.v, l.row - 1, l.col⟩ else none
    | .NE => if 0 < l.row then some ⟨.v, l.row - 1, l.col + 1⟩ else none
    | .SW => if 0 ≤ l.col ∧ l.row < g.rows then some ⟨.v, l.row, l.col⟩ else none
    | .SE => if l.row < g.rows then some ⟨.v, l.row, l.col + 1⟩ else none
  | .v =>
    match d with
    | .NW => if 0 ≤ l.row ∧ 0 < l.col then some ⟨.h, l.row, l.col - 1⟩ else none
    | .NE => if 0 ≤ l.row ∧ l.col < g.cols then some ⟨.h, l.row, l.col⟩ else none
    | .SW => if l.row < g.rows ∧ 0 < l.col then some ⟨.h, l.row + 1, l.col - 1⟩ else none
    | .SE => if l.row < g.rows ∧ l.col < g.cols then some ⟨.h, l.row + 1, l.col⟩ else none

/-- Snapshot of a grid-line object as stored in the Map: identity fields
plus the mirror flag. -/
structure GridLineRec where
  type : LType
  row : Nat
  col : Nat
  isMirror : Bool
deriving DecidableEq, Repr

/-- Grid.getGridLine: the line object, or null when the id is not a key of
the Map. -/
def getGridLine (g : Grid) (l : LineId) : Option GridLineRec :=
  if hasGridLine g l then some ⟨l.t, l.row, l.col, g.mirror l⟩ else none

/-- Grid.isBoundaryGridLine on a (non-null) line object: horizontal lines
with row 0 or row = rows, vertical lines with col 0 or col = cols. -/
def isBoundaryGridLine (g : Grid) (line : GridLineRec) : Bool :=
  match line.type with
  | .h => decide (line.row = 0) || decide (line.row = g.rows)
  | .v => decide (line.col = 0) || decide (line.col = g.cols)

/-- The same boundary test expressed on a raw id, as recomputed by
Grid.randomizeMirrors from parseGridLineId (src/logic/grid.js
lines 415-418). -/
def isBoundaryId (rows cols : Nat) (l : LineId) : Bool :=
  match l.t with
  | .h => decide (l.row = 0) || decide (l.row = rows)
  | .v => decide (l.col = 0) || decide (l.col = cols)

/-- Grid.setMirror: sets the flag when the line exists, otherwise no-op. -/
def setMirror (g : Grid) (l : LineId) (b : Bool) : Grid :=
  if hasGridLine g l then
    { g with mirror := fun x => if x = l then b else g.mirror x }
  else g

/-- Grid.markDirectionUsed: adds the direction to the used set of the line
when the usedDirections Map has an entry for it (it has one exactly for the
lines of the grid), otherwise no-op. -/
def markDirectionUsed (g : Grid) (l : LineId) (d : Dir) : Grid :=
  if hasGridLine g l then
    { g with used := fun x e => if x = l ∧ e = d then true else g.used x e }
  else g

/-- Grid.isDirectionUsed: false when the line has no entry, otherwise set
membership. -/
def isDirectionUsed (g : Grid) (l : LineId) (d : Dir) : Bool :=
  if hasGridLine g l then g.used l d else false

/-- Grid.getUnusedDirections: for an existing line, the directions of
[NW, NE, SW, SE] (in that order) not in its used set; empty for a missing
line.  The connection-null filter in the source is commented out and
therefore absent here. -/
def getUnusedDirections (g : Grid) (l : LineId) : List Dir :=
  match getGridLine g l with
  | none => []
  | some _ => [Dir.NW, Dir.NE, Dir.SW, Dir.SE].filter fun d => !(g.used l d)

/-- Reflection table of Grid.getReflectedDirection for a mirror of the given
orientation: horizontal swaps NW/SW and NE/SE, vertical swaps NW/NE and
SW/SE. -/
def reflectSwap (t : LType) (d : Dir) : Dir :=
  match t, d with
  | .h, .NW => .SW
  | .h, .NE => .SE
  | .h, .SW => .NW
  | .h, .SE => .NE
  | .v, .NW => .NE
  | .v, .NE => .NW
  | .v, .SW => .SE
  | .v, .SE => .SW

/-- Grid.getReflectedDirection: incoming direction unchanged for a missing
line or a non-mirror, otherwise the orientation-specific swap. -/
def getReflectedDirection (g : Grid) (l : LineId) (d : Dir) : Dir :=
  match getGridLine g l with
  | none => d
  | some line => if line.isMirror then reflectSwap line.type d else d

/-- Initial used-direction state set up by Grid.initializeUsedDirections:
empty for every line except boundary lines, which are pre-seeded with their
two outward directions (top: NW NE, bottom: SW SE, left: SW NW,
right: NE SE). -/
def initialUsed (rows cols : Nat) (l : LineId) (d : Dir) : Bool :=
  if (match l.t with
      | .h => decide (l.row ≤ rows) && decide (l.col < cols)
      | .v => decide (l.row < rows) && decide (l.col ≤ cols)) then
    match l.t with
    | .h =>
      if l.row = 0 then decide (d = .NW) || decide (d = .NE)
      else if l.row = rows then decide (d = .SW) || decide (d = .SE)
      else false
    | .v =>
      if l.col = 0 then decide (d = .SW) || decide (d = .NW)
      else if l.col = cols then decide (d = .NE) || decide (d = .SE)
      else false
  else false

/-- Grid.initializeUsedDirections, also the body of
Grid.resetUsedDirections: replaces the whole used-direction state by the
pre-seeded boundary state. -/
def initializeUsedDirections (g : Grid) : Grid :=
  { g with used := fun l d => initialUsed g.rows g.cols l d }

/-- Grid.resetUsedDirections just calls initializeUsedDirections. -/
def resetUsedDirections (g : Grid) : Grid :=
  initializeUsedDirections g

/-- The boundary lines visited by Grid.placeBoundaryMirrors, in source
order: top row, bottom row, left column, right column. -/
def boundaryLineList (rows cols : Nat) : List LineId :=
  ((List.range cols).map fun c => LineId.mk .h 0 c) ++
  ((List.range cols).map fun c => LineId.mk .h rows c) ++
  ((List.range rows).map fun r => LineId.mk .v r 0) ++
  ((List.range rows).map fun r => LineId.mk .v r cols)

/-- Grid.placeBoundaryMirrors: setMirror true on every boundary line. -/
def placeBoundaryMirrors (g : Grid) : Grid :=
  (boundaryLineList g.rows g.cols).foldl (fun gg l => setMirror gg l true) g

/-- The Grid constructor: all mirror flags start false
(initializeGridLines), then placeBoundaryMirrors and
initializeUsedDirections run.  computeConnections is the pure function
connections above. -/
def makeGrid (rows cols : Nat) : Grid :=
  initializeUsedDirections
    (placeBoundaryMirrors
      { rows := rows, cols := cols, mirror := fun _ => false,
        used := fun _ _ => false })

/-- Result of Grid.getAdjacentGridLine: noLine models the null returned when
the starting line is missing (or the direction invalid, impossible for the
Dir type); leftGrid models the thrown error "Curve left the grid" when the
stored connection is null; next is the adjacent id. -/
inductive AdjRes where
  | noLine
  | leftGrid
  | next (id : LineId)
deriving DecidableEq, Repr

/-- Grid.getAdjacentGridLine (src/logic/grid.js lines 243-260). -/
def getAdjacentGridLine (g : Grid) (l : LineId) (d : Dir) : AdjRes :=
  match getGridLine g l with
  | none => .noLine
  | some _ =>
    match connections g l d with
    | none => .leftGrid
    | some nid => .next nid

/-- The MirrorCurve object (src/logic/mirrorCurve.js): parallel arrays of
grid lines and the direction taken after each, plus the terminal flags. -/
structure MirrorCurve where
  gridLines : List LineId
  directions : List Dir
  isClosed : Bool
  leftGrid : Bool
  exitPoint : Option LineId
  exitDirection : Option Dir
deriving DecidableEq, Repr

/-- The MirrorCurve constructor: one starting line and direction, all flags
clear. -/
def MirrorCurve.init (l : LineId) (d : Dir) : MirrorCurve :=
  { gridLines := [l], directions := [d], isClosed := false, leftGrid := false,
    exitPoint := none, exitDirection := none }

/-- MirrorCurve.addSegment: push the next line and direction. -/
def addSegment (c : MirrorCurve) (l : LineId) (d : Dir) : MirrorCurve :=
  { c with gridLines := c.gridLines ++ [l], directions := c.directions ++ [d] }

/-- MAX_SEGMENTS bound of MirrorCurve.buildCurve. -/
def MAXSEG : Nat := 1000000

/-- Outcome of one iteration of the buildCurve while loop. -/
inductive StepOut where
  | failNoLine
  | exitGrid
  | closedLoop (nid : LineId) (nd : Dir)
  | continueStep (nid : LineId) (nd : Dir)
deriving DecidableEq, Repr

/-- One iteration of the while loop of MirrorCurve.buildCurve
(src/logic/mirrorCurve.js lines 57-120), for current line cur and current
direction d: resolve the adjacent line (a thrown "Curve left the grid"
becomes exitGrid, a null id becomes failNoLine, matching the return false
on a missing next line); compute the outgoing direction by reflection when
the next line is a mirror; append the segment; mark the outgoing direction
and the geometric opposite of the incoming direction used on the next
line; then test closure against the first stored line and direction once
more than two lines are stored. -/
def buildStep (g : Grid) (cur : LineId) (d : Dir) (c : MirrorCurve) :
    StepOut × MirrorCurve × Grid :=
  match getAdjacentGridLine g cur d with
  | .noLine => (.failNoLine, c, g)
  | .leftGrid =>
    (.exitGrid,
      { c with leftGrid := true, exitPoint := some cur,
               exitDirection := some d }, g)
  | .next nid =>
    match getGridLine g nid with
    | none => (.failNoLine, c, g)
    | some nline =>
      let nd := if nline.isMirror then getReflectedDirection g nid d else d
      let c2 := addSegment c nid nd
      let g2 := markDirectionUsed (markDirectionUsed g nid nd) nid (oppDir d)
      if 2 < c2.gridLines.length ∧ c2.gridLines.head? = some nid ∧
          c2.directions.head? = some nd then
        (.closedLoop nid nd, { c2 with isClosed := true }, g2)
      else
        (.continueStep nid nd, c2, g2)

/-- The while loop of MirrorCurve.buildCurve.  The loop guard is the length
bound of the source; the fuel argument only bounds the recursion depth and
is chosen large enough (MAXSEG) that the guard always fires first, since
every iteration grows the curve by one segment. -/
def buildLoop : Nat → Grid → LineId → Dir → MirrorCurve →
    Bool × MirrorCurve × Grid
  | 0, g, _, _, c => (false, c, g)
  | fuel + 1, g, cur, d, c =>
    if c.gridLines.length < MAXSEG then
      match buildStep g cur d c with
      | (.failNoLine, c2, g2) => (false, c2, g2)
      | (.exitGrid, c2, g2) => (true, c2, g2)
      | (.closedLoop _ _, c2, g2) => (true, c2, g2)
      | (.continueStep nid nd, c2, g2) => buildLoop fuel g2 nid nd c2
    else (false, c, g)

/-- new MirrorCurve(startGridLine, direction) followed by
curve.buildCurve(grid): mark the initial direction used, then run the
loop.  Returns the success flag, the curve and the mutated grid. -/
def buildCurve (g : Grid) (l : LineId) (d : Dir) : Bool × MirrorCurve × Grid :=
  buildLoop MAXSEG (markDirectionUsed g l d) l d (MirrorCurve.init l d)

/-- The scan of findNextCurve (src/logic/curveFinder.js lines 11-45) over
the remaining entries of the gridLines Map: skip lines with no unused
direction; for the first line with one, build a curve from its first
unused direction; on build success return the curve, on failure keep the
mutated grid, continue with the next line and remember that a failure was
logged (the Bool component models the console error and warning output of
the failure path). -/
def findNextAux (g : Grid) : List LineId → Option MirrorCurve × Grid × Bool
  | [] => (none, g, false)
  | l :: rest =>
    match getUnusedDirections g l with
    | [] => findNextAux g rest
    | d :: _ =>
      match buildCurve g l d with
      | (true, c, g2) => (some c, g2, false)
      | (false, _, g2) =>
        let r := findNextAux g2 rest
        (r.1, r.2.1, true)

/-- findNextCurve: scan all grid lines in Map insertion order. -/
def findNextCurve (g : Grid) : Option MirrorCurve × Grid × Bool :=
  findNextAux g (gridLineList g.rows g.cols)

/-- The while loop of findAllCurves, with an explicit fuel bound on the
number of iterations (the source loop is unbounded); none models running
out of fuel before findNextCurve returns null.  The Bool accumulates the
failure-logged flags of the findNextCurve calls. -/
def findAllLoop : Nat → Grid → List MirrorCurve → Bool →
    Option (List MirrorCurve × Grid × Bool)
  | 0, _, _, _ => none
  | fuel + 1, g, acc, flag =>
    match findNextCurve g with
    | (none, g2, f) => some (acc, g2, flag || f)
    | (some c, g2, f) => findAllLoop fuel g2 (acc ++ [c]) (flag || f)

/-- findAllCurves (src/logic/curveFinder.js lines 52-65): reset the
used-direction state, then collect curves until findNextCurve returns
null. -/
def findAllCurves (g : Grid) (fuel : Nat) :
    Option (List MirrorCurve × Grid × Bool) :=
  findAllLoop fuel (resetUsedDirections g) [] false

/-- The TOGGLE_MIRROR branch of dispatch in src/core/stateManager.js
(lines 238-257), restricted to its effect on the grid: a missing line is
ignored; a boundary line is refused; otherwise the mirror flag is
inverted.  (The curve and animation clearing it also performs does not
touch the grid.) -/
def dispatchToggleMirror (g : Grid) (l : LineId) : Grid :=
  match getGridLine g l with
  | none => g
  | some line =>
    if isBoundaryGridLine g line then g
    else setMirror g l (!line.isMirror)

/-- Grid.randomizeMirrors (src/logic/grid.js lines 408-426), with the
per-line outcome of Math.random() < p abstracted by the oracle flip.
The state-passing form returns the post-call grid together with the thrown
error message, if any; the range check precedes the loop, so the error
case leaves the grid exactly as it was. -/
def randomizeMirrors (g : Grid) (p : ℚ) (flip : LineId → Bool) :
    Grid × Option String :=
  if p < 0 ∨ 1 < p then (g, some "Probability must be between 0 and 1")
  else
    (((gridLineList g.rows g.cols).foldl (fun gg l =>
        if isBoundaryId gg.rows gg.cols l then gg
        else if flip l then setMirror gg l (!gg.mirror l) else gg) g), none)

/-- The (line, direction) step pairs stored in a curve, as a list (reversed
order; only membership and multiplicity matter).  Step i is the pair of
gridLines[i] and directions[i]. -/
def curveSteps (c : MirrorCurve) : List (LineId × Dir) :=
  c.gridLines.reverse.zip c.directions.reverse

/-- The pairs (gridLines[i], directions[i-1]) for i >= 1: the line of each
appended segment together with the direction along which it was entered. -/
def curveIncoming (c : MirrorCurve) : List (LineId × Dir) :=
  c.gridLines.reverse.zip (c.directions.reverse.drop 1)

/-- All pairs marked used on the grid on behalf of a curve during
buildCurve: every step pair (the start pair is step 0, marked before the
loop) and, for every appended segment, the geometric opposite of the
incoming direction on the appended line. -/
def curveMark (c : MirrorCurve) (l : LineId) (d : Dir) : Bool :=
  (curveSteps c).contains (l, d) ||
    ((curveIncoming c).map fun p => (p.1, oppDir p.2)).contains (l, d)

/-- A 2-D point of the drawing layer, with rational coordinates standing
for the JS doubles. -/
structure Pt where
  x : ℚ
  y : ℚ
deriving DecidableEq, Repr

/-- Math.abs over the rational model of JS numbers. -/
def absQ (q : ℚ) : ℚ := if q < 0 then -q else q

/-- segmentSubdivision of src/drawing/spline.js (bundled in
src/ui/mobileUI.js lines 625-645): subdivisions samples of the cubic
Hermite segment, at t = j / subdivisions for j in [0, subdivisions). -/
def segmentSubdivision (P0 P1 M0 M1 : Pt) (subdivisions : Nat) : List Pt :=
  (List.range subdivisions).map fun j =>
    let t : ℚ := (j : ℚ) / (subdivisions : ℚ)
    let t2 := t * t
    let t3 := t2 * t
    let h00 := 2 * t3 - 3 * t2 + 1
    let h10 := t3 - 2 * t2 + t
    let h01 := -2 * t3 + 3 * t2
    let h11 := t3 - t2
    Pt.mk (h00 * P0.x + h10 * M0.x + h01 * P1.x + h11 * M1.x)
      (h00 * P0.y + h10 * M0.y + h01 * P1.y + h11 * M1.y)

/-- getSplinePoints of src/drawing/spline.js (bundled in
src/ui/mobileUI.js lines 655-714), translated clause by clause: fewer than
2 points are returned as they are; closedness is detected by comparing the
first and last point within 0.001; for a closed input the duplicated last
point is dropped; tangents and segment endpoints are always taken with
cyclic (modulo numPoints) indexing; the two branches of the per-segment
if in the source push the same segment samples, so every one of the
numPoints segments, including the one from the last point back to the
first, is emitted; for a closed input the first point is re-appended. -/
def getSplinePoints (rawPoints : List Pt) (tension : ℚ) (subdivisions : Nat) :
    List Pt :=
  let N := rawPoints.length
  if N < 2 then rawPoints
  else
    let pFirst := rawPoints.getD 0 (Pt.mk 0 0)
    let pLast := rawPoints.getD (N - 1) (Pt.mk 0 0)
    let alreadyClosed := decide (1 < N) &&
      decide (absQ (pFirst.x - pLast.x) < 1 / 1000) &&
      decide (absQ (pFirst.y - pLast.y) < 1 / 1000)
    let effectivePoints := if alreadyClosed then rawPoints.take (N - 1)
      else rawPoints
    let numPoints := effectivePoints.length
    let tangents := (List.range numPoints).map fun i =>
      let prev := effectivePoints.getD ((i + numPoints - 1) % numPoints)
        (Pt.mk 0 0)
      let next := effectivePoints.getD ((i + 1) % numPoints) (Pt.mk 0 0)
      Pt.mk ((next.x - prev.x) * (1 - tension) / 2)
        ((next.y - prev.y) * (1 - tension) / 2)
    let curve := (List.range numPoints).flatMap fun i =>
      let P0 := effectivePoints.getD i (Pt.mk 0 0)
      let P1 := effectivePoints.getD ((i + 1) % numPoints) (Pt.mk 0 0)
      let M0 := tangents.getD i (Pt.mk 0 0)
      let M1 := tangents.getD ((i + 1) % numPoints) (Pt.mk 0 0)
      segmentSubdivision P0 P1 M0 M1 subdivisions
    if alreadyClosed then curve ++ [Pt.mk pFirst.x pFirst.y] else curve

/-- The for loop of getPointAtDistance (src/core/animationManager.js
lines 175-196): walk the segments from the previous point, accumulating
distance; when the target falls within a segment, return the interpolated
point and the segment index; otherwise return the accumulated length.
norm2 dx dy stands for Math.sqrt(dx*dx + dy*dy). -/
def gpadLoop (norm2 : ℚ → ℚ → ℚ) (target : ℚ) :
    Pt → List Pt → ℚ → Nat → Option (Pt × Nat) × ℚ
  | _, [], dist, _ => (none, dist)
  | prev, p :: rest, dist, i =>
    let dx := p.x - prev.x
    let dy := p.y - prev.y
    let segLen := norm2 dx dy
    if target ≤ dist + segLen then
      (some (Pt.mk (prev.x + (target - dist) / segLen * dx)
        (prev.y + (target - dist) / segLen * dy), i), dist)
    else gpadLoop norm2 target p rest (dist + segLen) (i + 1)

/-- getPointAtDistance (src/core/animationManager.js lines 168-223): the
degenerate guard returns the first point (undefined for an empty list,
modelled by Option) with segment index 0; then the segment walk; then for
a closed curve the wraparound segment from the last point back to the
first; finally the fallback to the first (closed) or last (open) point. -/
def getPointAtDistance (norm2 : ℚ → ℚ → ℚ) (points : List Pt)
    (targetDistance : ℚ) (isClosed : Bool) : Option Pt × Nat :=
  if points.length < 2 ∨ targetDistance ≤ 0 then (points.head?, 0)
  else
    match points with
    | [] => (points.head?, 0)
    | p0 :: rest =>
      match gpadLoop norm2 targetDistance p0 rest 0 0 with
      | (some (pt, idx), _) => (some pt, idx)
      | (none, dist) =>
        let pLast := points.getD (points.length - 1) (Pt.mk 0 0)
        let fallback : Option Pt × Nat :=
          (some (if isClosed then p0 else pLast), points.length - 1)
        if isClosed ∧ 1 < points.length then
          let dx := p0.x - pLast.x
          let dy := p0.y - pLast.y
          let segLen := norm2 dx dy
          if targetDistance ≤ dist + segLen then
            (some (Pt.mk (pLast.x + (targetDistance - dist) / segLen * dx)
              (pLast.y + (targetDistance - dist) / segLen * dy)),
              points.length - 1)
          else fallback
        else fallback

/-! Concrete instances used by counterexamples and witnesses. -/

/-- The 1 by 1 grid, fresh from the constructor: four lines, all boundary
mirrors. -/
def grid11 : Grid := makeGrid 1 1

/-- The result of findAllCurves on the 1 by 1 grid (ample fuel: the run
finds one closed curve and stops). -/
def fac11 : List MirrorCurve × Grid × Bool :=
  (findAllCurves grid11 20).getD ([], grid11, true)

/-- A 2 by 2 grid with one interior mirror on the horizontal line (1,0),
as produced by toggling that line. -/
def grid22m : Grid := dispatchToggleMirror (makeGrid 2 2) ⟨.h, 1, 0⟩

/-- The first iteration of the buildCurve walk started on grid22m at the
vertical line (0,1) in direction SW: the state after the start mark, fed
to buildStep. -/
def step22m : StepOut × MirrorCurve × Grid :=
  buildStep (markDirectionUsed grid22m ⟨.v, 0, 1⟩ .SW) ⟨.v, 0, 1⟩ .SW
    (MirrorCurve.init ⟨.v, 0, 1⟩ .SW)

/-! Helper lemmas. -/

theorem setMirror_rows (g : Grid) (l : LineId) (b : Bool) :
    (setMirror g l b).rows = g.rows := by
  unfold setMirror; split <;> rfl

theorem setMirror_cols (g : Grid) (l : LineId) (b : Bool) :
    (setMirror g l b).cols = g.cols := by
  unfold setMirror; split <;> rfl

theorem markDirectionUsed_rows (g : Grid) (l : LineId) (d : Dir) :
    (markDirectionUsed g l d).rows = g.rows := by
  unfold markDirectionUsed; split <;> rfl

theorem markDirectionUsed_cols (g : Grid) (l : LineId) (d : Dir) :
    (markDirectionUsed g l d).cols = g.cols := by
  unfold markDirectionUsed; split <;> rfl

theorem hasGridLine_dims (g g2 : Grid) (hr : g2.rows = g.rows)
    (hc : g2.cols = g.cols) (l : LineId) :
    hasGridLine g2 l = hasGridLine g l := by
  unfold hasGridLine; rw [hr, hc]

theorem setMirror_mirror (g : Grid) (l : LineId) (b : Bool) (x : LineId) :
    (setMirror g l b).mirror x =
      if x = l ∧ hasGridLine g l = true then b else g.mirror x := by
  unfold setMirror
  by_cases hx : x = l <;> by_cases hg : hasGridLine g l = true <;>
    simp [hx, hg]

theorem markDirectionUsed_used (g : Grid) (l : LineId) (d : Dir)
    (x : LineId) (e : Dir) :
    (markDirectionUsed g l d).used x e =
      if x = l ∧ e = d ∧ hasGridLine g l = true then true else g.used x e := by
  unfold markDirectionUsed
  by_cases hx : x = l <;> by_cases he : e = d <;>
    by_cases hg : hasGridLine g l = true <;> simp [hx, he, hg]

theorem boundaryList_foldl_mirror (L : List LineId) (g : Grid) (x : LineId) :
    ((L.foldl (fun gg l => setMirror gg l true) g)).mirror x =
      (g.mirror x || (L.contains x && hasGridLine g x)) := by
  induction L generalizing g with
  | nil => simp
  | cons a L ih =>
    simp only [List.foldl_cons, ih, List.contains_cons]
    rw [hasGridLine_dims g (setMirror g a true) (setMirror_rows g a true)
      (setMirror_cols g a true) x]
    rw [setMirror_mirror g a true x]
    by_cases hx : x = a
    · subst hx
      by_cases hg : hasGridLine g x = true <;> simp [hg]
    · have : (x == a) = false := by simp [hx]
      simp [hx, this]

theorem foldl_setMirror_rows (L : List LineId) (g : Grid) :
    ((L.foldl (fun gg l => setMirror gg l true) g)).rows = g.rows := by
  induction L generalizing g with
  | nil => rfl
  | cons a L ih => simp only [List.foldl_cons, ih, setMirror_rows]

theorem foldl_setMirror_cols (L : List LineId) (g : Grid) :
    ((L.foldl (fun gg l => setMirror gg l true) g)).cols = g.cols := by
  induction L generalizing g with
  | nil => rfl
  | cons a L ih => simp only [List.foldl_cons, ih, setMirror_cols]

theorem makeGrid_rows (rows cols : Nat) : (makeGrid rows cols).rows = rows := by
  unfold makeGrid initializeUsedDirections placeBoundaryMirrors
  simp [foldl_setMirror_rows]

theorem makeGrid_cols (rows cols : Nat) : (makeGrid rows cols).cols = cols := by
  unfold makeGrid initializeUsedDirections placeBoundaryMirrors
  simp [foldl_setMirror_cols]

theorem boundary_mem_boundaryList (rows cols : Nat) (l : LineId)
    (hb : isBoundaryId rows cols l = true)
    (hex : hasGridLine (makeGrid rows cols) l = true) :
    l ∈ boundaryLineList rows cols := by
  obtain ⟨t, row, col⟩ := l
  simp only [hasGridLine, makeGrid_rows, makeGrid_cols] at hex
  cases t with
  | h =>
    simp only [isBoundaryId, decide_eq_true_eq, Bool.or_eq_true] at hb
    simp only [hasGridLine, Bool.and_eq_true, decide_eq_true_eq] at hex
    unfold boundaryLineList
    rcases hb with hb | hb <;> subst hb <;>
      simp only [List.mem_append, List.mem_map, List.mem_range]
    · exact Or.inl (Or.inl (Or.inl ⟨col, hex.2, rfl⟩))
    · exact Or.inl (Or.inl (Or.inr ⟨col, hex.2, rfl⟩))
  | v =>
    simp only [isBoundaryId, decide_eq_true_eq, Bool.or_eq_true] at hb
    simp only [hasGridLine, Bool.and_eq_true, decide_eq_true_eq] at hex
    unfold boundaryLineList
    rcases hb with hb | hb <;> subst hb <;>
      simp only [List.mem_append, List.mem_map, List.mem_range]
    · exact Or.inl (Or.inr ⟨row, hex.1, rfl⟩)
    · exact Or.inr ⟨row, hex.1, rfl⟩

/-! Claim theorems. -/

/-- C10: for every grid, every non-null connection stored by
computeConnections for a line of the grid refers to a line that itself
exists in the gridLines Map, so the commented-out validation pass is
redundant and a traversal can only leave the grid through a null
connection. -/
theorem mc10_connections_stay_in_grid (g : Grid) (l : LineId)
    (hl : hasGridLine g l = true) (d : Dir) (n : LineId)
    (hc : connections g l d = some n) : hasGridLine g n = true := by
  obtain ⟨t, row, col⟩ := l
  cases t <;> cases d <;>
    simp only [connections, hasGridLine, Bool.and_eq_true,
      decide_eq_true_eq] at hl hc <;>
    split at hc <;>
    simp_all only [Option.some.injEq, reduceCtorEq] <;>
    subst hc <;>
    simp only [hasGridLine, Bool.and_eq_true, decide_eq_true_eq] <;>
    omega

/-- Witness for C10 on the 1 by 1 grid: the SW connection of the top
horizontal line is the vertical line (0,0), which exists. -/
theorem mc10_witness : hasGridLine grid11 ⟨.v, 0, 0⟩ = true :=
  mc10_connections_stay_in_grid grid11 ⟨.h, 0, 0⟩ (by decide) .SW ⟨.v, 0, 0⟩
    (by decide)

/-- C3: for every grid line of a grid, getReflectedDirection returns the
direction unchanged when the line is not a mirror; a horizontal mirror
swaps NW with SW and NE with SE; a vertical mirror swaps NW with NE and SW
with SE; and the result depends only on the orientation and mirror flag of
the line, never on its row or column. -/
theorem mc3_reflection (g g2 : Grid) (l l2 : LineId)
    (li li2 : GridLineRec) (d : Dir)
    (h : getGridLine g l = some li) (h2 : getGridLine g2 l2 = some li2) :
    (li.isMirror = false → getReflectedDirection g l d = d) ∧
    (li.isMirror = true → li.type = .h →
      getReflectedDirection g l .NW = .SW ∧
      getReflectedDirection g l .SW = .NW ∧
      getReflectedDirection g l .NE = .SE ∧
      getReflectedDirection g l .SE = .NE) ∧
    (li.isMirror = true → li.type = .v →
      getReflectedDirection g l .NW = .NE ∧
      getReflectedDirection g l .NE = .NW ∧
      getReflectedDirection g l .SW = .SE ∧
      getReflectedDirection g l .SE = .SW) ∧
    (li.type = li2.type → li.isMirror = li2.isMirror →
      getReflectedDirection g l d = getReflectedDirection g2 l2 d) := by
  unfold getGridLine at h h2
  split at h
  case isFalse => exact absurd h (by simp)
  case isTrue hg =>
    split at h2
    case isFalse => exact absurd h2 (by simp)
    case isTrue hg2 =>
      simp only [Option.some.injEq] at h h2
      subst h h2
      simp only [getReflectedDirection, getGridLine, hg, hg2, if_true]
      refine ⟨?_, ?_, ?_, ?_⟩
      · intro hm
        simp [hm]
      · intro hm ht
        simp [hm, ht, reflectSwap]
      · intro hm ht
        simp [hm, ht, reflectSwap]
      · intro ht hm
        rw [← ht, ← hm]

/-- Witness for C3 on the 1 by 1 grid: the top horizontal boundary mirror
and the left vertical boundary mirror at direction NW. -/
theorem mc3_witness :
    ((makeGrid 1 1).mirror ⟨.h, 0, 0⟩ = false →
      getReflectedDirection grid11 ⟨.h, 0, 0⟩ .NW = .NW) ∧
    ((makeGrid 1 1).mirror ⟨.h, 0, 0⟩ = true → LType.h = LType.h →
      getReflectedDirection grid11 ⟨.h, 0, 0⟩ .NW = .SW ∧
      getReflectedDirection grid11 ⟨.h, 0, 0⟩ .SW = .NW ∧
      getReflectedDirection grid11 ⟨.h, 0, 0⟩ .NE = .SE ∧
      getReflectedDirection grid11 ⟨.h, 0, 0⟩ .SE = .NE) ∧
    ((makeGrid 1 1).mirror ⟨.h, 0, 0⟩ = true → LType.h = LType.v →
      getReflectedDirection grid11 ⟨.h, 0, 0⟩ .NW = .NE ∧
      getReflectedDirection grid11 ⟨.h, 0, 0⟩ .NE = .NW ∧
      getReflectedDirection grid11 ⟨.h, 0, 0⟩ .SW = .SE ∧
      getReflectedDirection grid11 ⟨.h, 0, 0⟩ .SE = .SW) ∧
    (LType.h = LType.h →
      (makeGrid 1 1).mirror ⟨.h, 0, 0⟩ = (makeGrid 1 1).mirror ⟨.h, 1, 0⟩ →
      getReflectedDirection grid11 ⟨.h, 0, 0⟩ .NW =
        getReflectedDirection grid11 ⟨.h, 1, 0⟩ .NW) :=
  mc3_reflection grid11 grid11 ⟨.h, 0, 0⟩ ⟨.h, 1, 0⟩
    ⟨.h, 0, 0, (makeGrid 1 1).mirror ⟨.h, 0, 0⟩⟩
    ⟨.h, 1, 0, (makeGrid 1 1).mirror ⟨.h, 1, 0⟩⟩ .NW (by rfl) (by rfl)

theorem randomize_foldl_mirror (flip : LineId → Bool) (L : List LineId)
    (g : Grid) (l : LineId) (hb : isBoundaryId g.rows g.cols l = true) :
    ((L.foldl (fun gg x => if isBoundaryId gg.rows gg.cols x then gg
        else if flip x then setMirror gg x (!gg.mirror x) else gg) g)).mirror l
      = g.mirror l := by
  induction L generalizing g with
  | nil => rfl
  | cons a L ih =>
    simp only [List.foldl_cons]
    by_cases hba : isBoundaryId g.rows g.cols a = true
    · rw [if_pos hba]
      exact ih g hb
    · rw [if_neg hba]
      by_cases hf : flip a = true
      · rw [if_pos hf]
        have hrows := setMirror_rows g a (!g.mirror a)
        have hcols := setMirror_cols g a (!g.mirror a)
        have hb2 : isBoundaryId (setMirror g a (!g.mirror a)).rows
            (setMirror g a (!g.mirror a)).cols l = true := by
          rw [hrows, hcols]; exact hb
        rw [ih (setMirror g a (!g.mirror a)) hb2]
        rw [setMirror_mirror]
        have hla : l ≠ a := by
          intro he
          subst he
          exact hba hb
        simp [hla]
      · rw [if_neg hf]
        exact ih g hb

/-- C5: for all dimensions at least 1 by 1, every boundary grid line of the
freshly constructed grid is a mirror; dispatching TOGGLE_MIRROR on a
boundary line leaves its mirror flag unchanged; and randomizeMirrors never
changes the mirror flag of a boundary line, whatever the probability and
the random outcomes. -/
theorem mc5_boundary_mirrors (rows cols : Nat) (hr : 1 ≤ rows)
    (hc2 : 1 ≤ cols) (l : LineId) (hb : isBoundaryId rows cols l = true)
    (hex : hasGridLine (makeGrid rows cols) l = true)
    (g : Grid) (hgr : g.rows = rows) (hgc : g.cols = cols)
    (p : ℚ) (flip : LineId → Bool) :
    (makeGrid rows cols).mirror l = true ∧
    (dispatchToggleMirror g l).mirror l = g.mirror l ∧
    ((randomizeMirrors g p flip).1).mirror l = g.mirror l := by
  refine ⟨?_, ?_, ?_⟩
  · have hmem : l ∈ boundaryLineList rows cols :=
      boundary_mem_boundaryList rows cols l hb hex
    show (placeBoundaryMirrors
      { rows := rows, cols := cols, mirror := fun _ => false,
        used := fun _ _ => false }).mirror l = true
    unfold placeBoundaryMirrors
    rw [boundaryList_foldl_mirror]
    have hex2 : hasGridLine
        { rows := rows, cols := cols, mirror := fun _ => false,
          used := fun _ _ => false } l = true := by
      rw [hasGridLine_dims
        { rows := rows, cols := cols, mirror := fun _ => false,
          used := fun _ _ => false } (makeGrid rows cols)
        (makeGrid_rows rows cols) (makeGrid_cols rows cols)] at hex
      exact hex
    simp [hex2]
    exact hmem
  · unfold dispatchToggleMirror
    by_cases hgg : hasGridLine g l = true
    · have hsome : getGridLine g l = some ⟨l.t, l.row, l.col, g.mirror l⟩ := by
        unfold getGridLine; rw [if_pos hgg]
      rw [hsome]
      have hbg : isBoundaryGridLine g
          ⟨l.t, l.row, l.col, g.mirror l⟩ = true := by
        unfold isBoundaryGridLine
        rw [hgr, hgc]
        exact hb
      simp only [hbg, if_true]
    · have hnone : getGridLine g l = none := by
        unfold getGridLine; rw [if_neg hgg]
      rw [hnone]
  · unfold randomizeMirrors
    split
    · rfl
    · have hb2 : isBoundaryId g.rows g.cols l = true := by
        rw [hgr, hgc]; exact hb
      exact randomize_foldl_mirror flip (gridLineList g.rows g.cols) g l hb2

/-- Witness for C5 on the 1 by 1 grid, at the top horizontal boundary
line. -/
theorem mc5_witness :
    (makeGrid 1 1).mirror ⟨.h, 0, 0⟩ = true ∧
    (dispatchToggleMirror grid11 ⟨.h, 0, 0⟩).mirror ⟨.h, 0, 0⟩ =
      grid11.mirror ⟨.h, 0, 0⟩ ∧
    ((randomizeMirrors grid11 (1/2) (fun _ => true)).1).mirror ⟨.h, 0, 0⟩ =
      grid11.mirror ⟨.h, 0, 0⟩ :=
  mc5_boundary_mirrors 1 1 (by decide) (by decide) ⟨.h, 0, 0⟩ (by decide)
    (by decide) grid11 (by decide) (by decide) (1/2) (fun _ => true)

/-- C8: randomizeMirrors throws whenever p < 0 or p > 1, in which case the
grid is untouched (the range check precedes any mutation); for p in [0,1]
it does not throw and never changes the mirror flag of any boundary
line. -/
theorem mc8_randomize_range (g : Grid) (p : ℚ) (flip : LineId → Bool)
    (l : LineId) :
    ((p < 0 ∨ 1 < p) → randomizeMirrors g p flip =
      (g, some "Probability must be between 0 and 1")) ∧
    (0 ≤ p → p ≤ 1 →
      (randomizeMirrors g p flip).2 = none ∧
      (isBoundaryId g.rows g.cols l = true →
        ((randomizeMirrors g p flip).1).mirror l = g.mirror l)) := by
  constructor
  · intro hp
    unfold randomizeMirrors
    rw [if_pos hp]
  · intro h0 h1
    have hp : ¬(p < 0 ∨ 1 < p) := by
      push_neg
      exact ⟨h0, h1⟩
    unfold randomizeMirrors
    rw [if_neg hp]
    refine ⟨rfl, fun hb => ?_⟩
    exact randomize_foldl_mirror flip (gridLineList g.rows g.cols) g l hb

/-- Witness for C8 on the 1 by 1 grid: p = 2 throws and leaves the grid
unchanged; p = 1/2 does not throw and keeps the top boundary mirror. -/
theorem mc8_witness :
    randomizeMirrors grid11 2 (fun _ => true) =
      (grid11, some "Probability must be between 0 and 1") ∧
    (randomizeMirrors grid11 (1/2) (fun _ => true)).2 = none ∧
    ((randomizeMirrors grid11 (1/2) (fun _ => true)).1).mirror ⟨.h, 0, 0⟩ =
      grid11.mirror ⟨.h, 0, 0⟩ :=
  ⟨(mc8_randomize_range grid11 2 (fun _ => true) ⟨.h, 0, 0⟩).1
      (Or.inr (by norm_num)),
   ((mc8_randomize_range grid11 (1/2) (fun _ => true) ⟨.h, 0, 0⟩).2
      (by norm_num) (by norm_num)).1,
   ((mc8_randomize_range grid11 (1/2) (fun _ => true) ⟨.h, 0, 0⟩).2
      (by norm_num) (by norm_num)).2 (by decide)⟩

/-- C6 (evaluation of the code at the failing input): for the open
three-point input (0,0), (4,0), (4,4) with tension 0 and 2 subdivisions,
getSplinePoints emits three segments, including a wraparound segment whose
samples (4,4) and (7/4,9/4) continue past the last input point back toward
the first, and the tangent at the first point comes from the cyclic
neighbors (4,4) and (4,0) (visible in the sample (7/4,-1/2) dipping below
the straight segment from (0,0) to (4,0)); in particular the output does
not end at the last input point, contradicting the edge-clamped,
no-wraparound treatment of open inputs stated in the specification but
promised only in the comments of the source. -/
theorem mc6_spline_open_input :
    getSplinePoints [Pt.mk 0 0, Pt.mk 4 0, Pt.mk 4 4] 0 2 =
      [Pt.mk 0 0, Pt.mk (7/4) (-1/2), Pt.mk 4 0, Pt.mk (9/2) (9/4),
        Pt.mk 4 4, Pt.mk (7/4) (9/4)] ∧
    (getSplinePoints [Pt.mk 0 0, Pt.mk 4 0, Pt.mk 4 4] 0 2).getLast? ≠
      some (Pt.mk 4 4) := by
  have h : getSplinePoints [Pt.mk 0 0, Pt.mk 4 0, Pt.mk 4 4] 0 2 =
      [Pt.mk 0 0, Pt.mk (7/4) (-1/2), Pt.mk 4 0, Pt.mk (9/2) (9/4),
        Pt.mk 4 4, Pt.mk (7/4) (9/4)] := by
    simp only [getSplinePoints, segmentSubdivision, absQ]
    norm_num [List.range_succ]
  refine ⟨h, ?_⟩
  rw [h]
  simp only [List.getLast?, ne_eq, Option.some.injEq]
  intro hc
  have := congrArg Pt.x hc
  norm_num at this

/-- C9: for every non-empty point list, a target distance at most 0 or
fewer than 2 points makes getPointAtDistance return the first point of the
list with segment index 0; in particular progress 0 (target distance 0)
returns the first point. -/
theorem mc9_degenerate_first_point (norm2 : ℚ → ℚ → ℚ) (pts : List Pt)
    (t : ℚ) (closed : Bool) (hne : pts ≠ [])
    (hdeg : t ≤ 0 ∨ pts.length < 2) :
    getPointAtDistance norm2 pts t closed = (pts.head?, 0) ∧
    pts.head?.isSome = true := by
  constructor
  · unfold getPointAtDistance
    rw [if_pos hdeg.symm]
  · simp [List.head?_isSome, hne]

/-- Witness for C9: two points, target distance 0. -/
theorem mc9_witness :
    getPointAtDistance (fun dx dy => dx * dx + dy * dy)
      [Pt.mk 1 2, Pt.mk 3 4] 0 false =
      (([Pt.mk 1 2, Pt.mk 3 4] : List Pt).head?, 0) ∧
    ([Pt.mk 1 2, Pt.mk 3 4] : List Pt).head?.isSome = true :=
  mc9_degenerate_first_point (fun dx dy => dx * dx + dy * dy)
    [Pt.mk 1 2, Pt.mk 3 4] 0 false (by decide) (Or.inl (by norm_num))

theorem buildStep_flags (g : Grid) (cur : LineId) (d : Dir)
    (c : MirrorCurve) (out : StepOut) (c2 : MirrorCurve) (g2 : Grid)
    (h : buildStep g cur d c = (out, c2, g2)) :
    (out = .failNoLine → c2 = c ∧ g2 = g) ∧
    (out = .exitGrid → c2.isClosed = c.isClosed ∧ c2.leftGrid = true) ∧
    (∀ nid nd, out = .closedLoop nid nd →
      c2.isClosed = true ∧ c2.leftGrid = c.leftGrid) ∧
    (∀ nid nd, out = .continueStep nid nd →
      c2.isClosed = c.isClosed ∧ c2.leftGrid = c.leftGrid) := by
  simp only [buildStep] at h
  split at h
  · simp only [Prod.mk.injEq] at h
    obtain ⟨ho, hc, hg⟩ := h
    subst ho hc hg
    refine ⟨fun _ => ⟨rfl, rfl⟩, ?_, ?_, ?_⟩ <;> intros <;> simp_all
  · simp only [Prod.mk.injEq] at h
    obtain ⟨ho, hc, hg⟩ := h
    subst ho hc hg
    refine ⟨?_, fun _ => ⟨rfl, rfl⟩, ?_, ?_⟩ <;> intros <;> simp_all
  · split at h
    · simp only [Prod.mk.injEq] at h
      obtain ⟨ho, hc, hg⟩ := h
      subst ho hc hg
      refine ⟨?_, ?_, ?_, ?_⟩ <;> intros <;> simp_all
    · split at h <;> split at h <;>
        (injection h with ho h23
         injection h23 with hc hg
         subst ho; subst hc; subst hg) <;>
        first
        | exact ⟨fun hh => by simp at hh, fun hh => by simp at hh,
            fun nid2 nd2 hh => ⟨rfl, rfl⟩, fun nid2 nd2 hh => by simp at hh⟩
        | exact ⟨fun hh => by simp at hh, fun hh => by simp at hh,
            fun nid2 nd2 hh => by simp at hh, fun nid2 nd2 hh => ⟨rfl, rfl⟩⟩

theorem buildLoop_flags (fuel : Nat) : ∀ (g : Grid) (cur : LineId) (d : Dir)
    (c : MirrorCurve) (res : Bool) (c2 : MirrorCurve) (g2 : Grid),
    buildLoop fuel g cur d c = (res, c2, g2) →
    c.isClosed = false → c.leftGrid = false →
    ((res = true → (c2.isClosed = true ∧ c2.leftGrid = false) ∨
      (c2.isClosed = false ∧ c2.leftGrid = true)) ∧
     (res = false → c2.isClosed = false ∧ c2.leftGrid = false)) := by
  induction fuel with
  | zero =>
    intro g cur d c res c2 g2 h hic hlg
    simp only [buildLoop, Prod.mk.injEq] at h
    obtain ⟨hres, hc, hg⟩ := h
    subst hres hc hg
    exact ⟨fun hh => absurd hh (by simp), fun _ => ⟨hic, hlg⟩⟩
  | succ fuel ih =>
    intro g cur d c res c2 g2 h hic hlg
    simp only [buildLoop] at h
    split at h
    · rcases hstep : buildStep g cur d c with ⟨out, c3, g3⟩
      rw [hstep] at h
      have hflags := buildStep_flags g cur d c out c3 g3 hstep
      cases out with
      | failNoLine =>
        simp only [Prod.mk.injEq] at h
        obtain ⟨hres, hc, hg⟩ := h
        subst hres hc hg
        obtain ⟨hcc, hgg⟩ := hflags.1 rfl
        subst hcc
        exact ⟨fun hh => absurd hh (by simp), fun _ => ⟨hic, hlg⟩⟩
      | exitGrid =>
        simp only [Prod.mk.injEq] at h
        obtain ⟨hres, hc, hg⟩ := h
        subst hres hc hg
        obtain ⟨h1, h2⟩ := hflags.2.1 rfl
        exact ⟨fun _ => Or.inr ⟨h1.trans hic, h2⟩,
          fun hh => absurd hh (by simp)⟩
      | closedLoop nid nd =>
        simp only [Prod.mk.injEq] at h
        obtain ⟨hres, hc, hg⟩ := h
        subst hres hc hg
        obtain ⟨h1, h2⟩ := hflags.2.2.1 nid nd rfl
        exact ⟨fun _ => Or.inl ⟨h1, h2.trans hlg⟩,
          fun hh => absurd hh (by simp)⟩
      | continueStep nid nd =>
        obtain ⟨h1, h2⟩ := hflags.2.2.2 nid nd rfl
        exact ih g3 nid nd c3 res c2 g2 h (h1.trans hic) (h2.trans hlg)
    · simp only [Prod.mk.injEq] at h
      obtain ⟨hres, hc, hg⟩ := h
      subst hres hc hg
      exact ⟨fun hh => absurd hh (by simp), fun _ => ⟨hic, hlg⟩⟩

/-- C4: a curve built by buildCurve with result true is exactly one of
closed or left-the-grid, and the both-false outcome occurs exactly when
buildCurve returns false. -/
theorem mc4_closed_xor_leftGrid (g : Grid) (l : LineId) (d : Dir)
    (res : Bool) (c : MirrorCurve) (g2 : Grid)
    (h : buildCurve g l d = (res, c, g2)) :
    (res = true → (c.isClosed = true ∧ c.leftGrid = false) ∨
      (c.isClosed = false ∧ c.leftGrid = true)) ∧
    (res = false → c.isClosed = false ∧ c.leftGrid = false) := by
  unfold buildCurve at h
  exact buildLoop_flags MAXSEG (markDirectionUsed g l d) l d
    (MirrorCurve.init l d) res c g2 h rfl rfl

/-- Witness for C4: the closed curve found on the fresh 1 by 1 grid. -/
theorem mc4_witness :
    ((buildCurve grid11 ⟨.h, 0, 0⟩ .SW).1 = true →
      ((buildCurve grid11 ⟨.h, 0, 0⟩ .SW).2.1.isClosed = true ∧
        (buildCurve grid11 ⟨.h, 0, 0⟩ .SW).2.1.leftGrid = false) ∨
      ((buildCurve grid11 ⟨.h, 0, 0⟩ .SW).2.1.isClosed = false ∧
        (buildCurve grid11 ⟨.h, 0, 0⟩ .SW).2.1.leftGrid = true)) ∧
    ((buildCurve grid11 ⟨.h, 0, 0⟩ .SW).1 = false →
      (buildCurve grid11 ⟨.h, 0, 0⟩ .SW).2.1.isClosed = false ∧
      (buildCurve grid11 ⟨.h, 0, 0⟩ .SW).2.1.leftGrid = false) :=
  mc4_closed_xor_leftGrid grid11 ⟨.h, 0, 0⟩ .SW
    (buildCurve grid11 ⟨.h, 0, 0⟩ .SW).1
    (buildCurve grid11 ⟨.h, 0, 0⟩ .SW).2.1
    (buildCurve grid11 ⟨.h, 0, 0⟩ .SW).2.2 rfl

theorem getGridLine_isSome_has (g : Grid) (l : LineId) (r : GridLineRec)
    (h : getGridLine g l = some r) : hasGridLine g l = true := by
  unfold getGridLine at h
  split at h
  case isTrue hh => exact hh
  case isFalse => exact absurd h (by simp)

theorem hasGridLine_markUsed (g : Grid) (l : LineId) (d : Dir) (x : LineId) :
    hasGridLine (markDirectionUsed g l d) x = hasGridLine g x :=
  hasGridLine_dims g (markDirectionUsed g l d) (markDirectionUsed_rows g l d)
    (markDirectionUsed_cols g l d) x

theorem double_mark_used (g : Grid) (nid : LineId) (a b e : Dir)
    (hex : hasGridLine g nid = true) (he : e = a ∨ e = b) :
    (markDirectionUsed (markDirectionUsed g nid a) nid b).used nid e = true := by
  rw [markDirectionUsed_used, markDirectionUsed_used, hasGridLine_markUsed]
  rcases he with he | he
  · by_cases hab : e = b
    · simp [hab, hex]
    · simp [hab, he, hex]
  · simp [he, hex]

theorem mark_pair_used (g : Grid) (nid : LineId) (a : Dir) (d : Dir)
    (hex : hasGridLine g nid = true) :
    isDirectionUsed
      (markDirectionUsed (markDirectionUsed g nid a) nid (oppDir d))
      nid a = true ∧
    isDirectionUsed
      (markDirectionUsed (markDirectionUsed g nid a) nid (oppDir d))
      nid (oppDir d) = true := by
  constructor <;> unfold isDirectionUsed <;>
    rw [hasGridLine_markUsed, hasGridLine_markUsed, if_pos hex]
  · exact double_mark_used g nid a (oppDir d) a hex (Or.inl rfl)
  · exact double_mark_used g nid a (oppDir d) (oppDir d) hex (Or.inr rfl)

/-- C2 counterexample: on a 2 by 2 grid whose interior horizontal line
(1,0) is a mirror, the first iteration of the buildCurve walk started at
the vertical line (0,1) in direction SW appends the step with nextEdge
h(1,0) and outgoingDirection NW, yet the geometric opposite of the
outgoing direction, SE, is not consumed on h(1,0) after the iteration:
the code marks the opposite of the incoming direction (NE) instead. -/
theorem mc2_counterexample :
    step22m.1 = StepOut.continueStep ⟨.h, 1, 0⟩ .NW ∧
    step22m.2.1.gridLines.getLast? = some ⟨.h, 1, 0⟩ ∧
    step22m.2.1.directions.getLast? = some .NW ∧
    oppDir .NW = .SE ∧
    isDirectionUsed step22m.2.2 ⟨.h, 1, 0⟩ .SE = false := by
  refine ⟨by decide, by decide, by decide, by decide, by decide⟩

/-- C2 amended: in every iteration of the buildCurve walk that appends a
step, after appending (nextEdge, outgoingDirection) to the curve, both
outgoingDirection and the geometric opposite of the incoming direction
(the current direction of the iteration) are marked consumed on nextEdge;
the two marks coincide with the claimed pair (outgoing and its opposite)
exactly when nextEdge is not a mirror. -/
theorem mc2_amended (g : Grid) (cur : LineId) (d : Dir) (c : MirrorCurve)
    (out : StepOut) (c2 : MirrorCurve) (g2 : Grid) (nid : LineId) (nd : Dir)
    (h : buildStep g cur d c = (out, c2, g2))
    (hout : out = .continueStep nid nd ∨ out = .closedLoop nid nd) :
    c2.gridLines.getLast? = some nid ∧
    c2.directions.getLast? = some nd ∧
    isDirectionUsed g2 nid nd = true ∧
    isDirectionUsed g2 nid (oppDir d) = true := by
  simp only [buildStep] at h
  split at h
  · injection h with ho h23
    subst ho
    rcases hout with hh | hh <;> exact absurd hh (by simp)
  · injection h with ho h23
    subst ho
    rcases hout with hh | hh <;> exact absurd hh (by simp)
  · next nid0 heqadj =>
    split at h
    · injection h with ho h23
      subst ho
      rcases hout with hh | hh <;> exact absurd hh (by simp)
    · next val heqgl =>
      have hex : hasGridLine g nid0 = true :=
        getGridLine_isSome_has g nid0 val heqgl
      split at h
      · split at h
        · injection h with ho h23
          injection h23 with hc hg
          subst hc; subst hg
          rcases hout with hh | hh
          · rw [← ho] at hh; exact absurd hh (by simp)
          · rw [← ho] at hh
            injection hh with hn1 hn2
            refine ⟨?_, ?_, ?_, ?_⟩
            · rw [← hn1]; simp [addSegment]
            · rw [← hn2]; simp [addSegment]
            · rw [← hn1, ← hn2]; exact (mark_pair_used g nid0 _ d hex).1
            · rw [← hn1]; exact (mark_pair_used g nid0 _ d hex).2
        · injection h with ho h23
          injection h23 with hc hg
          subst hc; subst hg
          rcases hout with hh | hh
          · rw [← ho] at hh
            injection hh with hn1 hn2
            refine ⟨?_, ?_, ?_, ?_⟩
            · rw [← hn1]; simp [addSegment]
            · rw [← hn2]; simp [addSegment]
            · rw [← hn1, ← hn2]; exact (mark_pair_used g nid0 _ d hex).1
            · rw [← hn1]; exact (mark_pair_used g nid0 _ d hex).2
          · rw [← ho] at hh; exact absurd hh (by simp)
      · split at h
        · injection h with ho h23
          injection h23 with hc hg
          subst hc; subst hg
          rcases hout with hh | hh
          · rw [← ho] at hh; exact absurd hh (by simp)
          · rw [← ho] at hh
            injection hh with hn1 hn2
            refine ⟨?_, ?_, ?_, ?_⟩
            · rw [← hn1]; simp [addSegment]
            · rw [← hn2]; simp [addSegment]
            · rw [← hn1, ← hn2]; exact (mark_pair_used g nid0 _ d hex).1
            · rw [← hn1]; exact (mark_pair_used g nid0 _ d hex).2
        · injection h with ho h23
          injection h23 with hc hg
          subst hc; subst hg
          rcases hout with hh | hh
          · rw [← ho] at hh
            injection hh with hn1 hn2
            refine ⟨?_, ?_, ?_, ?_⟩
            · rw [← hn1]; simp [addSegment]
            · rw [← hn2]; simp [addSegment]
            · rw [← hn1, ← hn2]; exact (mark_pair_used g nid0 _ d hex).1
            · rw [← hn1]; exact (mark_pair_used g nid0 _ d hex).2
          · rw [← ho] at hh; exact absurd hh (by simp)

/-- Witness for C2 (amended) at the concrete first iteration on the 2 by 2
grid with the interior mirror h(1,0). -/
theorem mc2_witness :
    step22m.2.1.gridLines.getLast? = some ⟨.h, 1, 0⟩ ∧
    step22m.2.1.directions.getLast? = some .NW ∧
    isDirectionUsed step22m.2.2 ⟨.h, 1, 0⟩ .NW = true ∧
    isDirectionUsed step22m.2.2 ⟨.h, 1, 0⟩ (oppDir .SW) = true :=
  mc2_amended (markDirectionUsed grid22m ⟨.v, 0, 1⟩ .SW) ⟨.v, 0, 1⟩ .SW
    (MirrorCurve.init ⟨.v, 0, 1⟩ .SW) step22m.1 step22m.2.1 step22m.2.2
    ⟨.h, 1, 0⟩ .NW rfl (Or.inl (by decide))

theorem head?_append_left {α : Type} (xs ys : List α) (h : xs ≠ []) :
    (xs ++ ys).head? = xs.head? := by
  cases xs with
  | nil => exact absurd rfl h
  | cons a t => rfl

theorem buildStep_head (g : Grid) (cur : LineId) (d : Dir) (c : MirrorCurve)
    (out : StepOut) (c2 : MirrorCurve) (g2 : Grid)
    (h : buildStep g cur d c = (out, c2, g2))
    (hne : c.gridLines ≠ []) (hne2 : c.directions ≠ []) :
    c2.gridLines.head? = c.gridLines.head? ∧
    c2.directions.head? = c.directions.head? ∧
    c2.gridLines ≠ [] ∧ c2.directions ≠ [] := by
  simp only [buildStep] at h
  split at h
  · injection h with ho h23
    injection h23 with hc hg
    subst hc
    exact ⟨rfl, rfl, hne, hne2⟩
  · injection h with ho h23
    injection h23 with hc hg
    subst hc
    exact ⟨rfl, rfl, hne, hne2⟩
  · split at h
    · injection h with ho h23
      injection h23 with hc hg
      subst hc
      exact ⟨rfl, rfl, hne, hne2⟩
    · split at h <;> split at h <;>
        (injection h with ho h23
         injection h23 with hc hg
         subst hc) <;>
        exact ⟨head?_append_left c.gridLines _ hne,
          head?_append_left c.directions _ hne2,
          by simp [addSegment], by simp [addSegment]⟩

theorem buildLoop_head (fuel : Nat) : ∀ (g : Grid) (cur : LineId) (d : Dir)
    (c : MirrorCurve) (res : Bool) (c2 : MirrorCurve) (g2 : Grid),
    buildLoop fuel g cur d c = (res, c2, g2) →
    c.gridLines ≠ [] → c.directions ≠ [] →
    c2.gridLines.head? = c.gridLines.head? ∧
    c2.directions.head? = c.directions.head? := by
  induction fuel with
  | zero =>
    intro g cur d c res c2 g2 h hne hne2
    simp only [buildLoop, Prod.mk.injEq] at h
    obtain ⟨hres, hc, hg⟩ := h
    subst hc
    exact ⟨rfl, rfl⟩
  | succ fuel ih =>
    intro g cur d c res c2 g2 h hne hne2
    simp only [buildLoop] at h
    split at h
    · rcases hstep : buildStep g cur d c with ⟨out, c3, g3⟩
      rw [hstep] at h
      have hh := buildStep_head g cur d c out c3 g3 hstep hne hne2
      cases out with
      | failNoLine =>
        simp only [Prod.mk.injEq] at h
        obtain ⟨hres, hc, hg⟩ := h
        subst hc
        exact ⟨hh.1, hh.2.1⟩
      | exitGrid =>
        simp only [Prod.mk.injEq] at h
        obtain ⟨hres, hc, hg⟩ := h
        subst hc
        exact ⟨hh.1, hh.2.1⟩
      | closedLoop nid nd =>
        simp only [Prod.mk.injEq] at h
        obtain ⟨hres, hc, hg⟩ := h
        subst hc
        exact ⟨hh.1, hh.2.1⟩
      | continueStep nid nd =>
        have hrec := ih g3 nid nd c3 res c2 g2 h hh.2.2.1 hh.2.2.2
        exact ⟨hrec.1.trans hh.1, hrec.2.trans hh.2.1⟩
    · simp only [Prod.mk.injEq] at h
      obtain ⟨hres, hc, hg⟩ := h
      subst hc
      exact ⟨rfl, rfl⟩

theorem buildCurve_start (g : Grid) (l : LineId) (d : Dir) (res : Bool)
    (c : MirrorCurve) (g2 : Grid) (h : buildCurve g l d = (res, c, g2)) :
    c.gridLines.head? = some l ∧ c.directions.head? = some d := by
  unfold buildCurve at h
  have hh := buildLoop_head MAXSEG (markDirectionUsed g l d) l d
    (MirrorCurve.init l d) res c g2 h (by simp [MirrorCurve.init])
    (by simp [MirrorCurve.init])
  exact ⟨hh.1, hh.2⟩

theorem findNextAux_all_consumed (g : Grid) (ls : List LineId)
    (h : ∀ l ∈ ls, getUnusedDirections g l = []) :
    findNextAux g ls = (none, g, false) := by
  induction ls with
  | nil => rfl
  | cons a ls ih =>
    simp only [findNextAux]
    rw [h a (List.mem_cons_self a ls)]
    exact ih fun l hl => h l (List.mem_cons_of_mem a hl)

theorem findNextAux_skip (g : Grid) (pre : List LineId)
    (h : ∀ l ∈ pre, getUnusedDirections g l = []) (rest : List LineId) :
    findNextAux g (pre ++ rest) = findNextAux g rest := by
  induction pre with
  | nil => rfl
  | cons a pre ih =>
    simp only [List.cons_append, findNextAux]
    rw [h a (List.mem_cons_self a pre)]
    exact ih fun l hl => h l (List.mem_cons_of_mem a hl)

/-- C7: findNextCurve scans the grid lines in the fixed Map insertion
order (all horizontal lines row-major, then all vertical lines row-major,
the order of gridLineList); when every line has an empty unused-direction
list it returns null without touching the grid; and when the scan order
splits as pre ++ l0 :: rest with every line of pre fully consumed and l0
having the unused directions d :: ds (so d is the lowest-ordered
unconsumed direction in the enum order NW, NE, SW, SE), the curve it
builds and returns on success starts exactly at (l0, d). -/
theorem mc7_scan_order (g : Grid) (pre : List LineId) (l0 : LineId)
    (rest : List LineId) (d : Dir) (ds : List Dir) (c : MirrorCurve)
    (g2 : Grid) :
    ((∀ l ∈ gridLineList g.rows g.cols, getUnusedDirections g l = []) →
      findNextCurve g = (none, g, false)) ∧
    (gridLineList g.rows g.cols = pre ++ l0 :: rest →
      (∀ l ∈ pre, getUnusedDirections g l = []) →
      getUnusedDirections g l0 = d :: ds →
      buildCurve g l0 d = (true, c, g2) →
      findNextCurve g = (some c, g2, false) ∧
      c.gridLines.head? = some l0 ∧ c.directions.head? = some d) := by
  constructor
  · intro h
    unfold findNextCurve
    exact findNextAux_all_consumed g (gridLineList g.rows g.cols) h
  · intro hsplit hpre hun hbuild
    have hstart := buildCurve_start g l0 d true c g2 hbuild
    refine ⟨?_, hstart.1, hstart.2⟩
    unfold findNextCurve
    rw [hsplit, findNextAux_skip g pre hpre (l0 :: rest)]
    simp only [findNextAux]
    rw [hun]
    simp only [hbuild]

/-- Witness for C7: on a fully consumed 1 by 1 grid the scan returns null;
on the fresh 1 by 1 grid the scan starts at the first line h(0,0) with its
lowest unconsumed direction SW and returns the curve built there. -/
theorem mc7_witness :
    findNextCurve (Grid.mk 1 1 (fun _ => true) (fun _ _ => true)) =
      (none, Grid.mk 1 1 (fun _ => true) (fun _ _ => true), false) ∧
    (findNextCurve grid11 =
      (some (buildCurve grid11 ⟨.h, 0, 0⟩ .SW).2.1,
        (buildCurve grid11 ⟨.h, 0, 0⟩ .SW).2.2, false) ∧
      (buildCurve grid11 ⟨.h, 0, 0⟩ .SW).2.1.gridLines.head? =
        some ⟨.h, 0, 0⟩ ∧
      (buildCurve grid11 ⟨.h, 0, 0⟩ .SW).2.1.directions.head? = some .SW) :=
  ⟨(mc7_scan_order (Grid.mk 1 1 (fun _ => true) (fun _ _ => true)) [.mk .h 0 0]
      ⟨.h, 0, 0⟩ [] .NW [] (MirrorCurve.init ⟨.h, 0, 0⟩ .NW)
      (Grid.mk 1 1 (fun _ => true) (fun _ _ => true))).1 (by decide),
   (mc7_scan_order grid11 [] ⟨.h, 0, 0⟩
      [⟨.h, 1, 0⟩, ⟨.v, 0, 0⟩, ⟨.v, 0, 1⟩] .SW [.SE]
      (buildCurve grid11 ⟨.h, 0, 0⟩ .SW).2.1
      (buildCurve grid11 ⟨.h, 0, 0⟩ .SW).2.2).2
      (by decide) (by decide) (by decide) rfl⟩

theorem curveSteps_addSegment (c : MirrorCurve) (nid : LineId) (nd : Dir) :
    curveSteps (addSegment c nid nd) = (nid, nd) :: curveSteps c := by
  unfold curveSteps addSegment
  simp

theorem curveIncoming_addSegment (c : MirrorCurve) (nid : LineId)
    (nd : Dir) (d : Dir) (hlast : c.directions.getLast? = some d) :
    curveIncoming (addSegment c nid nd) = (nid, d) :: curveIncoming c := by
  unfold curveIncoming addSegment
  have hrev : c.directions.reverse.head? = some d := by
    rw [List.head?_reverse]; exact hlast
  cases hd : c.directions.reverse with
  | nil => rw [hd] at hrev; exact absurd hrev (by simp)
  | cons x t =>
    rw [hd] at hrev
    simp only [List.head?_cons, Option.some.injEq] at hrev
    subst hrev
    simp [hd]

theorem curveMark_flagsFree (c : MirrorCurve) (b1 b2 : Bool)
    (p : Option LineId) (q : Option Dir) :
    curveMark
      { c with isClosed := b1, leftGrid := b2, exitPoint := p,
               exitDirection := q } = curveMark c := rfl

theorem curveMark_addSegment_iff (c : MirrorCurve) (nid : LineId)
    (nd d : Dir) (hlast : c.directions.getLast? = some d) (l : LineId)
    (e : Dir) :
    curveMark (addSegment c nid nd) l e = true ↔
      ((l, e) = (nid, nd) ∨ (l, e) = (nid, oppDir d) ∨
        curveMark c l e = true) := by
  unfold curveMark
  rw [curveSteps_addSegment, curveIncoming_addSegment c nid nd d hlast]
  simp only [List.map_cons, List.contains_cons, Bool.or_eq_true,
    beq_iff_eq]
  constructor
  · rintro (⟨hh | hh⟩ | ⟨hh | hh⟩)
    · exact Or.inl hh
    · exact Or.inr (Or.inr (Or.inl hh))
    · exact Or.inr (Or.inl hh)
    · exact Or.inr (Or.inr (Or.inr hh))
  · rintro (hh | hh | hh | hh)
    · exact Or.inl (Or.inl hh)
    · exact Or.inr (Or.inl hh)
    · exact Or.inl (Or.inr hh)
    · exact Or.inr (Or.inr hh)

theorem curveMark_init (l0 : LineId) (d0 : Dir) (l : LineId) (e : Dir) :
    curveMark (MirrorCurve.init l0 d0) l e = true ↔ (l, e) = (l0, d0) := by
  unfold curveMark curveSteps curveIncoming MirrorCurve.init
  simp

theorem addSegment_getLast (c : MirrorCurve) (nid : LineId) (nd : Dir) :
    (addSegment c nid nd).directions.getLast? = some nd := by
  unfold addSegment
  simp

theorem buildStep_dims (g : Grid) (cur : LineId) (d : Dir)
    (c : MirrorCurve) (out : StepOut) (c3 : MirrorCurve) (g3 : Grid)
    (h : buildStep g cur d c = (out, c3, g3)) :
    g3.rows = g.rows ∧ g3.cols = g.cols := by
  simp only [buildStep] at h
  split at h
  · injection h with ho h23
    injection h23 with hc hg
    subst hg
    exact ⟨rfl, rfl⟩
  · injection h with ho h23
    injection h23 with hc hg
    subst hg
    exact ⟨rfl, rfl⟩
  · split at h
    · injection h with ho h23
      injection h23 with hc hg
      subst hg
      exact ⟨rfl, rfl⟩
    · split at h <;> split at h <;>
        (injection h with ho h23
         injection h23 with hc hg
         subst hg) <;>
        exact ⟨by rw [markDirectionUsed_rows, markDirectionUsed_rows],
          by rw [markDirectionUsed_cols, markDirectionUsed_cols]⟩

theorem double_mark_char (g : Grid) (nid : LineId) (a b : Dir)
    (hex : hasGridLine g nid = true) (l : LineId) (e : Dir) :
    (markDirectionUsed (markDirectionUsed g nid a) nid b).used l e =
      (g.used l e || (decide ((l, e) = (nid, a)) ||
        decide ((l, e) = (nid, b)))) := by
  rw [markDirectionUsed_used, markDirectionUsed_used, hasGridLine_markUsed]
  by_cases hl : l = nid
  · subst hl
    by_cases hea : e = a <;> by_cases heb : e = b <;>
      simp [hea, heb, hex]
  · simp [hl, Prod.ext_iff]

/-- Per-iteration summary of buildStep for the used-direction
bookkeeping: on a step that appends (nid, nd), the next line exists, the
marks of the extended curve are exactly the two new marks plus the old
ones, the used state gains exactly the two new marks, and the last stored
direction becomes nd. -/
theorem buildStep_used (g : Grid) (cur : LineId) (d : Dir) (c : MirrorCurve)
    (out : StepOut) (c3 : MirrorCurve) (g3 : Grid)
    (h : buildStep g cur d c = (out, c3, g3))
    (hlast : c.directions.getLast? = some d) :
    (out = .failNoLine → c3 = c ∧ g3 = g) ∧
    (out = .exitGrid → (∀ l e, curveMark c3 l e = curveMark c l e) ∧
      g3 = g) ∧
    (∀ nid nd, (out = .closedLoop nid nd ∨ out = .continueStep nid nd) →
      hasGridLine g nid = true ∧
      (∀ l e, curveMark c3 l e = true ↔ ((l, e) = (nid, nd) ∨
        (l, e) = (nid, oppDir d) ∨ curveMark c l e = true)) ∧
      (∀ l e, g3.used l e = (g.used l e || (decide ((l, e) = (nid, nd)) ||
        decide ((l, e) = (nid, oppDir d))))) ∧
      c3.directions.getLast? = some nd) := by
  simp only [buildStep] at h
  split at h
  · injection h with ho h23
    injection h23 with hc hg
    subst hc; subst hg; subst ho
    refine ⟨fun _ => ⟨rfl, rfl⟩, fun hh => absurd hh (by simp), ?_⟩
    intro nid nd hh
    rcases hh with hh | hh <;> exact absurd hh (by simp)
  · injection h with ho h23
    injection h23 with hc hg
    subst hc; subst hg; subst ho
    refine ⟨fun hh => absurd hh (by simp),
      fun _ => ⟨fun l e => rfl, rfl⟩, ?_⟩
    intro nid nd hh
    rcases hh with hh | hh <;> exact absurd hh (by simp)
  · next nid0 heqadj =>
    split at h
    · injection h with ho h23
      injection h23 with hc hg
      subst hc; subst hg; subst ho
      refine ⟨fun _ => ⟨rfl, rfl⟩, fun hh => absurd hh (by simp), ?_⟩
      intro nid nd hh
      rcases hh with hh | hh <;> exact absurd hh (by simp)
    · next val heqgl =>
      have hex : hasGridLine g nid0 = true :=
        getGridLine_isSome_has g nid0 val heqgl
      split at h
      · split at h
        · injection h with ho h23
          injection h23 with hc hg
          subst hc; subst hg; subst ho
          refine ⟨fun hh => absurd hh (by simp),
            fun hh => absurd hh (by simp), ?_⟩
          intro nid nd hh
          rcases hh with hh | hh
          · injection hh with hn1 hn2
            refine ⟨by rw [← hn1]; exact hex, ?_, ?_, ?_⟩
            · intro l e
              rw [← hn1, ← hn2]
              exact curveMark_addSegment_iff c nid0 _ d hlast l e
            · intro l e
              rw [← hn1, ← hn2]
              exact double_mark_char g nid0 _ (oppDir d) hex l e
            · rw [← hn2]
              exact addSegment_getLast c nid0 _
          · exact absurd hh (by simp)
        · injection h with ho h23
          injection h23 with hc hg
          subst hc; subst hg; subst ho
          refine ⟨fun hh => absurd hh (by simp),
            fun hh => absurd hh (by simp), ?_⟩
          intro nid nd hh
          rcases hh with hh | hh
          · exact absurd hh (by simp)
          · injection hh with hn1 hn2
            refine ⟨by rw [← hn1]; exact hex, ?_, ?_, ?_⟩
            · intro l e
              rw [← hn1, ← hn2]
              exact curveMark_addSegment_iff c nid0 _ d hlast l e
            · intro l e
              rw [← hn1, ← hn2]
              exact double_mark_char g nid0 _ (oppDir d) hex l e
            · rw [← hn2]
              exact addSegment_getLast c nid0 _
      · split at h
        · injection h with ho h23
          injection h23 with hc hg
          subst hc; subst hg; subst ho
          refine ⟨fun hh => absurd hh (by simp),
            fun hh => absurd hh (by simp), ?_⟩
          intro nid nd hh
          rcases hh with hh | hh
          · injection hh with hn1 hn2
            refine ⟨by rw [← hn1]; exact hex, ?_, ?_, ?_⟩
            · intro l e
              rw [← hn1, ← hn2]
              exact curveMark_addSegment_iff c nid0 _ d hlast l e
            · intro l e
              rw [← hn1, ← hn2]
              exact double_mark_char g nid0 _ (oppDir d) hex l e
            · rw [← hn2]
              exact addSegment_getLast c nid0 _
          · exact absurd hh (by simp)
        · injection h with ho h23
          injection h23 with hc hg
          subst hc; subst hg; subst ho
          refine ⟨fun hh => absurd hh (by simp),
            fun hh => absurd hh (by simp), ?_⟩
          intro nid nd hh
          rcases hh with hh | hh
          · exact absurd hh (by simp)
          · injection hh with hn1 hn2
            refine ⟨by rw [← hn1]; exact hex, ?_, ?_, ?_⟩
            · intro l e
              rw [← hn1, ← hn2]
              exact curveMark_addSegment_iff c nid0 _ d hlast l e
            · intro l e
              rw [← hn1, ← hn2]
              exact double_mark_char g nid0 _ (oppDir d) hex l e
            · rw [← hn2]
              exact addSegment_getLast c nid0 _

theorem buildLoop_mark_mono (fuel : Nat) : ∀ (g : Grid) (cur : LineId)
    (d : Dir) (c : MirrorCurve) (res : Bool) (c2 : MirrorCurve) (g2 : Grid),
    buildLoop fuel g cur d c = (res, c2, g2) →
    c.directions.getLast? = some d →
    ∀ l e, curveMark c l e = true → curveMark c2 l e = true := by
  induction fuel with
  | zero =>
    intro g cur d c res c2 g2 h hlast l e hm
    simp only [buildLoop, Prod.mk.injEq] at h
    obtain ⟨hres, hc, hg⟩ := h
    subst hc
    exact hm
  | succ fuel ih =>
    intro g cur d c res c2 g2 h hlast l e hm
    simp only [buildLoop] at h
    split at h
    · rcases hstep : buildStep g cur d c with ⟨out, c3, g3⟩
      rw [hstep] at h
      have hsum := buildStep_used g cur d c out c3 g3 hstep hlast
      cases out with
      | failNoLine =>
        simp only [Prod.mk.injEq] at h
        obtain ⟨hres, hc, hg⟩ := h
        subst hc
        rw [(hsum.1 rfl).1]
        exact hm
      | exitGrid =>
        simp only [Prod.mk.injEq] at h
        obtain ⟨hres, hc, hg⟩ := h
        subst hc
        rw [(hsum.2.1 rfl).1 l e]
        exact hm
      | closedLoop nid nd =>
        simp only [Prod.mk.injEq] at h
        obtain ⟨hres, hc, hg⟩ := h
        subst hc
        exact ((hsum.2.2 nid nd (Or.inl rfl)).2.1 l e).mpr
          (Or.inr (Or.inr hm))
      | continueStep nid nd =>
        have hpart := hsum.2.2 nid nd (Or.inr rfl)
        have hm3 : curveMark c3 l e = true :=
          (hpart.2.1 l e).mpr (Or.inr (Or.inr hm))
        exact ih g3 nid nd c3 res c2 g2 h hpart.2.2.2 l e hm3
    · simp only [Prod.mk.injEq] at h
      obtain ⟨hres, hc, hg⟩ := h
      subst hc
      exact hm

theorem buildLoop_used (fuel : Nat) : ∀ (g : Grid) (cur : LineId) (d : Dir)
    (c : MirrorCurve) (res : Bool) (c2 : MirrorCurve) (g2 : Grid),
    buildLoop fuel g cur d c = (res, c2, g2) →
    c.directions.getLast? = some d →
    (∀ l e, curveMark c l e = true → g.used l e = true) →
    ∀ l e, g2.used l e = (g.used l e || curveMark c2 l e) := by
  induction fuel with
  | zero =>
    intro g cur d c res c2 g2 h hlast hsub l e
    simp only [buildLoop, Prod.mk.injEq] at h
    obtain ⟨hres, hc, hg⟩ := h
    subst hc; subst hg
    cases hm : curveMark c l e
    · simp
    · simp [hsub l e hm]
  | succ fuel ih =>
    intro g cur d c res c2 g2 h hlast hsub l e
    simp only [buildLoop] at h
    split at h
    · rcases hstep : buildStep g cur d c with ⟨out, c3, g3⟩
      rw [hstep] at h
      have hsum := buildStep_used g cur d c out c3 g3 hstep hlast
      cases out with
      | failNoLine =>
        simp only [Prod.mk.injEq] at h
        obtain ⟨hres, hc, hg⟩ := h
        subst hc; subst hg
        obtain ⟨hcc, hgg⟩ := hsum.1 rfl
        rw [hcc, hgg]
        cases hm : curveMark c l e
        · simp
        · simp [hsub l e hm]
      | exitGrid =>
        simp only [Prod.mk.injEq] at h
        obtain ⟨hres, hc, hg⟩ := h
        subst hc; subst hg
        obtain ⟨hmk, hgg⟩ := hsum.2.1 rfl
        rw [hgg, hmk l e]
        cases hm : curveMark c l e
        · simp
        · simp [hsub l e hm]
      | closedLoop nid nd =>
        simp only [Prod.mk.injEq] at h
        obtain ⟨hres, hc, hg⟩ := h
        subst hc; subst hg
        have hpart := hsum.2.2 nid nd (Or.inl rfl)
        rw [hpart.2.2.1 l e]
        have hiff := hpart.2.1 l e
        cases hg2 : g.used l e
        · simp only [Bool.false_or]
          cases hd1 : decide ((l, e) = (nid, nd)) <;>
            cases hd2 : decide ((l, e) = (nid, oppDir d))
          · have hm3 : curveMark c3 l e = false := by
              cases hm3 : curveMark c3 l e
              · rfl
              · rcases hiff.mp hm3 with hh | hh | hh
                · rw [hh] at hd1; simp at hd1
                · rw [hh] at hd2; simp at hd2
                · rw [hsub l e hh] at hg2; exact absurd hg2 (by simp)
            simp [hm3]
          · have hm3 : curveMark c3 l e = true :=
              hiff.mpr (Or.inr (Or.inl (of_decide_eq_true hd2)))
            simp [hm3]
          · have hm3 : curveMark c3 l e = true :=
              hiff.mpr (Or.inl (of_decide_eq_true hd1))
            simp [hm3]
          · have hm3 : curveMark c3 l e = true :=
              hiff.mpr (Or.inl (of_decide_eq_true hd1))
            simp [hm3]
        · simp
      | continueStep nid nd =>
        have hpart := hsum.2.2 nid nd (Or.inr rfl)
        have hsub3 : ∀ l e, curveMark c3 l e = true → g3.used l e = true := by
          intro l2 e2 hm3
          rw [hpart.2.2.1 l2 e2]
          rcases (hpart.2.1 l2 e2).mp hm3 with hh | hh | hh
          · simp [hh]
          · simp [hh]
          · simp [hsub l2 e2 hh]
        have hrec := ih g3 nid nd c3 res c2 g2 h hpart.2.2.2 hsub3
        have hmono := buildLoop_mark_mono fuel g3 nid nd c3 res c2 g2 h
          hpart.2.2.2
        rw [hrec l e, hpart.2.2.1 l e]
        cases hd1 : decide ((l, e) = (nid, nd))
        · cases hd2 : decide ((l, e) = (nid, oppDir d))
          · simp
          · have hm3 : curveMark c2 l e = true := by
              apply hmono l e
              exact (hpart.2.1 l e).mpr
                (Or.inr (Or.inl (of_decide_eq_true hd2)))
            simp [hm3]
        · have hm3 : curveMark c2 l e = true := by
            apply hmono l e
            exact (hpart.2.1 l e).mpr (Or.inl (of_decide_eq_true hd1))
          simp [hm3]
    · simp only [Prod.mk.injEq] at h
      obtain ⟨hres, hc, hg⟩ := h
      subst hc; subst hg
      cases hm : curveMark c l e
      · simp
      · simp [hsub l e hm]

theorem buildCurve_used (g : Grid) (l0 : LineId) (d0 : Dir) (res : Bool)
    (c : MirrorCurve) (g2 : Grid) (hex : hasGridLine g l0 = true)
    (h : buildCurve g l0 d0 = (res, c, g2)) :
    ∀ l e, g2.used l e = (g.used l e || curveMark c l e) := by
  unfold buildCurve at h
  have hlast : (MirrorCurve.init l0 d0).directions.getLast? = some d0 := rfl
  have hsub : ∀ l e, curveMark (MirrorCurve.init l0 d0) l e = true →
      (markDirectionUsed g l0 d0).used l e = true := by
    intro l e hm
    have hpt := (curveMark_init l0 d0 l e).mp hm
    rw [markDirectionUsed_used]
    simp only [Prod.mk.injEq] at hpt
    simp [hpt.1, hpt.2, hex]
  have hchar := buildLoop_used MAXSEG (markDirectionUsed g l0 d0) l0 d0
    (MirrorCurve.init l0 d0) res c g2 h hlast hsub
  have hmono := buildLoop_mark_mono MAXSEG (markDirectionUsed g l0 d0) l0 d0
    (MirrorCurve.init l0 d0) res c g2 h hlast
  intro l e
  rw [hchar l e, markDirectionUsed_used]
  by_cases h1 : l = l0 ∧ e = d0
  · have hm : curveMark c l e = true := by
      apply hmono l e
      apply (curveMark_init l0 d0 l e).mpr
      simp [Prod.ext_iff, h1.1, h1.2]
    obtain ⟨ha, hb⟩ := h1
    subst ha; subst hb
    simp [hex, hm]
  · have hneg : ¬(l = l0 ∧ e = d0 ∧ hasGridLine g l0 = true) := by
      intro hcon
      exact h1 ⟨hcon.1, hcon.2.1⟩
    rw [if_neg hneg]

theorem buildLoop_dims (fuel : Nat) : ∀ (g : Grid) (cur : LineId) (d : Dir)
    (c : MirrorCurve) (res : Bool) (c2 : MirrorCurve) (g2 : Grid),
    buildLoop fuel g cur d c = (res, c2, g2) →
    g2.rows = g.rows ∧ g2.cols = g.cols := by
  induction fuel with
  | zero =>
    intro g cur d c res c2 g2 h
    simp only [buildLoop, Prod.mk.injEq] at h
    obtain ⟨hres, hc, hg⟩ := h
    subst hg
    exact ⟨rfl, rfl⟩
  | succ fuel ih =>
    intro g cur d c res c2 g2 h
    simp only [buildLoop] at h
    split at h
    · rcases hstep : buildStep g cur d c with ⟨out, c3, g3⟩
      rw [hstep] at h
      have hd := buildStep_dims g cur d c out c3 g3 hstep
      cases out with
      | failNoLine =>
        simp only [Prod.mk.injEq] at h
        obtain ⟨hres, hc, hg⟩ := h
        subst hg
        exact hd
      | exitGrid =>
        simp only [Prod.mk.injEq] at h
        obtain ⟨hres, hc, hg⟩ := h
        subst hg
        exact hd
      | closedLoop nid nd =>
        simp only [Prod.mk.injEq] at h
        obtain ⟨hres, hc, hg⟩ := h
        subst hg
        exact hd
      | continueStep nid nd =>
        have hrec := ih g3 nid nd c3 res c2 g2 h
        exact ⟨hrec.1.trans hd.1, hrec.2.trans hd.2⟩
    · simp only [Prod.mk.injEq] at h
      obtain ⟨hres, hc, hg⟩ := h
      subst hg
      exact ⟨rfl, rfl⟩

theorem buildCurve_dims (g : Grid) (l0 : LineId) (d0 : Dir) (res : Bool)
    (c : MirrorCurve) (g2 : Grid) (h : buildCurve g l0 d0 = (res, c, g2)) :
    g2.rows = g.rows ∧ g2.cols = g.cols := by
  unfold buildCurve at h
  have hd := buildLoop_dims MAXSEG (markDirectionUsed g l0 d0) l0 d0
    (MirrorCurve.init l0 d0) res c g2 h
  rw [markDirectionUsed_rows, markDirectionUsed_cols] at hd
  exact hd

theorem mem_gridLineList_has (g : Grid) (l : LineId)
    (hl : l ∈ gridLineList g.rows g.cols) : hasGridLine g l = true := by
  unfold gridLineList at hl
  simp only [List.mem_append, List.mem_flatMap, List.mem_map,
    List.mem_range] at hl
  rcases hl with ⟨r, hr, cc, hc, he⟩ | ⟨r, hr, cc, hc, he⟩ <;> subst he <;>
    simp only [hasGridLine, Bool.and_eq_true, decide_eq_true_eq] <;> omega

theorem unused_nil_used (g : Grid) (l : LineId)
    (hex : hasGridLine g l = true)
    (h : getUnusedDirections g l = []) (e : Dir) : g.used l e = true := by
  unfold getUnusedDirections getGridLine at h
  rw [if_pos hex] at h
  simp only [List.filter_eq_nil_iff, Bool.not_eq_true] at h
  have := h e (by cases e <;> simp)
  simp only [Bool.not_eq_true] at this
  simp at this
  exact this

theorem findNextAux_none (g : Grid) : ∀ (ls : List LineId) (g2 : Grid),
    findNextAux g ls = (none, g2, false) →
    g2 = g ∧ ∀ l ∈ ls, getUnusedDirections g l = [] := by
  intro ls
  induction ls with
  | nil =>
    intro g2 h
    simp only [findNextAux, Prod.mk.injEq] at h
    exact ⟨h.2.1.symm, by simp⟩
  | cons a ls ih =>
    intro g2 h
    simp only [findNextAux] at h
    cases hu : getUnusedDirections g a with
    | nil =>
      rw [hu] at h
      obtain ⟨hg, hall⟩ := ih g2 h
      refine ⟨hg, ?_⟩
      intro l hl
      rcases List.mem_cons.mp hl with hl | hl
      · subst hl; exact hu
      · exact hall l hl
    | cons d ds =>
      rw [hu] at h
      rcases hb : buildCurve g a d with ⟨bres, bc, bg⟩
      simp only [hb] at h
      cases bres
      · simp only [Prod.mk.injEq] at h
        exact absurd h.2.2 (by simp)
      · simp only [Prod.mk.injEq] at h
        exact absurd h.1 (by simp)

theorem findNextAux_some (g : Grid) : ∀ (ls : List LineId) (c : MirrorCurve)
    (g2 : Grid), (∀ l ∈ ls, hasGridLine g l = true) →
    findNextAux g ls = (some c, g2, false) →
    (g2.rows = g.rows ∧ g2.cols = g.cols) ∧
    (∀ l e, g2.used l e = (g.used l e || curveMark c l e)) := by
  intro ls
  induction ls generalizing g with
  | nil =>
    intro c g2 hex h
    simp only [findNextAux, Prod.mk.injEq] at h
    exact absurd h.1 (by simp)
  | cons a ls ih =>
    intro c g2 hex h
    simp only [findNextAux] at h
    cases hu : getUnusedDirections g a with
    | nil =>
      rw [hu] at h
      exact ih g c g2 (fun l hl => hex l (List.mem_cons_of_mem a hl)) h
    | cons d ds =>
      rw [hu] at h
      rcases hb : buildCurve g a d with ⟨bres, bc, bg⟩
      simp only [hb] at h
      cases bres
      · simp only [Prod.mk.injEq] at h
        exact absurd h.2.2 (by simp)
      · simp only [Prod.mk.injEq, Option.some.injEq] at h
        obtain ⟨hc, hg, hf⟩ := h
        have hexa : hasGridLine g a = true :=
          hex a (List.mem_cons_self a ls)
        rw [← hc, ← hg]
        exact ⟨buildCurve_dims g a d true bc bg hb,
          buildCurve_used g a d true bc bg hexa hb⟩

theorem findAllLoop_flag (fuel : Nat) : ∀ (g : Grid) (acc : List MirrorCurve)
    (cs : List MirrorCurve) (gF : Grid) (fl : Bool),
    findAllLoop fuel g acc true = some (cs, gF, fl) → fl = true := by
  induction fuel with
  | zero =>
    intro g acc cs gF fl h
    exact absurd h (by simp [findAllLoop])
  | succ fuel ih =>
    intro g acc cs gF fl h
    simp only [findAllLoop] at h
    rcases hn : findNextCurve g with ⟨ocurve, g3, f⟩
    rw [hn] at h
    cases ocurve with
    | none =>
      simp only [Option.some.injEq, Prod.mk.injEq] at h
      rw [← h.2.2]
      simp
    | some c =>
      simp only [Bool.true_or] at h
      exact ih g3 (acc ++ [c]) cs gF fl h

theorem findAllLoop_char (fuel : Nat) : ∀ (g : Grid) (acc : List MirrorCurve)
    (cs : List MirrorCurve) (gF : Grid),
    findAllLoop fuel g acc false = some (cs, gF, false) →
    (gF.rows = g.rows ∧ gF.cols = g.cols) ∧
    cs.take acc.length = acc ∧
    (∀ l e, gF.used l e =
      (g.used l e || (cs.drop acc.length).any fun cc => curveMark cc l e)) ∧
    (∀ l ∈ gridLineList gF.rows gF.cols, getUnusedDirections gF l = []) := by
  induction fuel with
  | zero =>
    intro g acc cs gF h
    exact absurd h (by simp [findAllLoop])
  | succ fuel ih =>
    intro g acc cs gF h
    simp only [findAllLoop] at h
    rcases hn : findNextCurve g with ⟨ocurve, g3, f⟩
    rw [hn] at h
    cases ocurve with
    | none =>
      simp only [Option.some.injEq, Prod.mk.injEq, Bool.false_or] at h
      obtain ⟨hcs, hgF, hf⟩ := h
      subst hcs
      subst hf
      obtain ⟨hgg, hall⟩ := findNextAux_none g (gridLineList g.rows g.cols)
        g3 hn
      subst hgg
      rw [← hgF]
      refine ⟨⟨rfl, rfl⟩, List.take_length acc, ?_, ?_⟩
      · intro l e
        simp [List.drop_length]
      · exact hall
    | some c =>
      cases f with
      | true =>
        simp only [Bool.false_or] at h
        exact absurd (findAllLoop_flag fuel g3 (acc ++ [c]) cs gF false h)
          (by simp)
      | false =>
        simp only [Bool.false_or] at h
        have hnext := findNextAux_some g (gridLineList g.rows g.cols) c g3
          (fun l hl => mem_gridLineList_has g l hl) hn
        have hrec := ih g3 (acc ++ [c]) cs gF h
        have hdr : g3.rows = g.rows := hnext.1.1
        have hdc : g3.cols = g.cols := hnext.1.2
        have hlen : (acc ++ [c]).length = acc.length + 1 := by simp
        refine ⟨⟨hrec.1.1.trans hdr, hrec.1.2.trans hdc⟩, ?_, ?_, ?_⟩
        · have htake := hrec.2.1
          rw [hlen] at htake
          have : cs.take acc.length =
              (cs.take (acc.length + 1)).take acc.length := by
            rw [List.take_take]
            congr 1
            omega
          rw [this, htake]
          exact List.take_left acc [c]
        · intro l e
          have hdrop : cs.drop acc.length =
              c :: cs.drop (acc.length + 1) := by
            have hcs : cs = cs.take (acc.length + 1) ++
                cs.drop (acc.length + 1) := (List.take_append_drop _ cs).symm
            calc cs.drop acc.length
                = (cs.take (acc.length + 1) ++
                    cs.drop (acc.length + 1)).drop acc.length := by
                  rw [← hcs]
              _ = ((acc ++ [c]) ++ cs.drop (acc.length + 1)).drop
                    acc.length := by
                  have htk : List.take (acc.length + 1) cs = acc ++ [c] := by
                    rw [← hlen]; exact hrec.2.1
                  rw [htk]
              _ = (acc ++ ([c] ++ cs.drop (acc.length + 1))).drop
                    acc.length := by rw [List.append_assoc]
              _ = [c] ++ cs.drop (acc.length + 1) := by
                  rw [List.drop_left acc]
              _ = c :: cs.drop (acc.length + 1) := rfl
          rw [hdrop]
          rw [hrec.2.2.1 l e, hnext.2 l e]
          simp only [List.any_cons]
          cases g.used l e <;> cases curveMark c l e <;> simp
        · intro l hl
          exact hrec.2.2.2 l hl

/-- C1 amended: findAllCurves first resets the used-direction state (its
result is independent of the incoming used state); whenever it completes
with no build failure logged, every line of the grid ends with every
direction consumed, and the consumed set is exactly the pre-seeded
boundary pairs together with the marks of the returned curves, where the
marks of a curve are its (line, direction) steps plus, for each appended
step, the geometric opposite of the incoming direction on the stepped-on
line.  The steps alone do not cover every non-pre-seeded pair, and a
stored step list of a closed curve repeats its start pair as its final entry,
so coverage is stated for marks, not for steps, and without the
exactly-once requirement. -/
theorem mc1_partition_amended (g : Grid) (fuel : Nat)
    (cs : List MirrorCurve) (gF : Grid) (u2 : LineId → Dir → Bool)
    (l : LineId) (e : Dir)
    (h : findAllCurves g fuel = some (cs, gF, false)) :
    findAllCurves { g with used := u2 } fuel = findAllCurves g fuel ∧
    (l ∈ gridLineList g.rows g.cols → isDirectionUsed gF l e = true) ∧
    gF.used l e = (initialUsed g.rows g.cols l e ||
      cs.any fun c => curveMark c l e) := by
  have hchar := findAllLoop_char fuel (resetUsedDirections g) [] cs gF h
  refine ⟨rfl, ?_, ?_⟩
  · intro hl
    have hdr : gF.rows = g.rows := hchar.1.1
    have hdc : gF.cols = g.cols := hchar.1.2
    have hasl : hasGridLine gF l = true := by
      apply mem_gridLineList_has gF l
      rw [hdr, hdc]
      exact hl
    have hun : getUnusedDirections gF l = [] := by
      apply hchar.2.2.2
      rw [hdr, hdc]
      exact hl
    unfold isDirectionUsed
    rw [if_pos hasl]
    exact unused_nil_used gF l hasl hun e
  · have hu := hchar.2.2.1 l e
    simp only [List.length_nil, List.drop_zero] at hu
    exact hu

/-- Witness for C1 (amended) by the complete run on the fresh 1 by 1 grid:
the enumeration is independent of the incoming used state, the direction
NW ends consumed on the top line, and the consumed state of the pair
(v(0,0), NE) is exactly pre-seeded-or-marked. -/
theorem mc1_witness :
    findAllCurves { grid11 with used := fun _ _ => true } 20 =
      findAllCurves grid11 20 ∧
    isDirectionUsed fac11.2.1 ⟨.h, 0, 0⟩ .NW = true ∧
    fac11.2.1.used ⟨.v, 0, 0⟩ .NE =
      (initialUsed grid11.rows grid11.cols ⟨.v, 0, 0⟩ .NE ||
        fac11.1.any fun c => curveMark c ⟨.v, 0, 0⟩ .NE) :=
  ⟨(mc1_partition_amended grid11 20 fac11.1 fac11.2.1 (fun _ _ => true)
      ⟨.h, 0, 0⟩ .NW rfl).1,
   (mc1_partition_amended grid11 20 fac11.1 fac11.2.1 (fun _ _ => true)
      ⟨.h, 0, 0⟩ .NW rfl).2.1 (by decide),
   (mc1_partition_amended grid11 20 fac11.1 fac11.2.1 (fun _ _ => true)
      ⟨.v, 0, 0⟩ .NE rfl).2.2⟩

/-- C1 counterexample, on the fresh 1 by 1 grid: findAllCurves completes
normally (no failure logged) and returns exactly one curve; the pair
(v(0,0), NE) is a pair of the grid that is not pre-seeded at reset, yet it
is a step of no returned curve; and the single returned curve, a closed
loop, covers its start step (h(0,0), SW) twice.  Hence the steps of the
returned curves neither cover every non-pre-seeded (line, direction) pair
nor avoid covering a pair twice. -/
theorem mc1_counterexample :
    (findAllCurves grid11 20).isSome = true ∧
    fac11.2.2 = false ∧
    fac11.1.length = 1 ∧
    hasGridLine grid11 ⟨.v, 0, 0⟩ = true ∧
    initialUsed grid11.rows grid11.cols ⟨.v, 0, 0⟩ .NE = false ∧
    (fac11.1.all fun c =>
      !((curveSteps c).contains (⟨.v, 0, 0⟩, .NE))) = true ∧
    (fac11.1.all fun c => c.isClosed) = true ∧
    (curveSteps (fac11.1.getD 0 (MirrorCurve.init ⟨.h, 0, 0⟩ .NW))).count
      (⟨.h, 0, 0⟩, .SW) = 2 := by
  refine ⟨by decide, by decide, by decide, by decide, by decide, by decide,
    by decide, by decide⟩

end MirrorCurveModel
